import Mathlib

/-!
# Explorer Command Bar Button Hider

A shallow embedding of `explorer-command-bar-button-hider.wh.cpp` and the
properties of its matcher, separator suppressor, button processor, mutation
observer, TAP injection and attach/detach lifecycle.

Wide strings are lists of UTF-16 code units.  The live XAML tree is a list of
nodes addressed by index; the mutable dependency properties the program
touches (visibility, registered property-changed callbacks) are kept beside
the tree, together with the dispatcher's low-priority queue and the log.
-/

set_option autoImplicit false

namespace ButtonHider

/-! ## Wide strings -/

/-- The code units (`wchar_t`, UTF-16) of a `std::wstring`; the terminating NUL
of `c_str()` is not stored. -/
abbrev wstring := List Nat

/-- The wide string literal written `L"..."` in the source. -/
def L (s : String) : wstring := s.toList.map Char.toNat

/-- Known SVG icon filenames (language-independent). -/
def ICON_ROTATE_LEFT : wstring := L "windows.rotate270.svg"

/-- Icon file of the rotate-right button. -/
def ICON_ROTATE_RIGHT : wstring := L "windows.rotate90.svg"

/-- Icon file of the set-as-desktop-background button. -/
def ICON_WALLPAPER : wstring := L "windows.setdesktopwallpaper.svg"

/-- The member `std::wstring::find(const wchar_t*)`: the index of the first
occurrence of `needle` in `hay`; `none` stands for `npos`. -/
def find (hay needle : wstring) : Option Nat :=
  if needle.isPrefixOf hay then some 0
  else
    match hay with
    | [] => none
    | _ :: rest => (find rest needle).map (· + 1)

/-- The C runtime's `towlower` in the default "C" locale: `A`..`Z` map to
`a`..`z`, every other code unit is unchanged. -/
def towlower (c : Nat) : Nat :=
  if 65 ≤ c ∧ c ≤ 90 then c + 32 else c

/-- The C runtime's `_wcsicmp` applied to `a.c_str()` and `b.c_str()`: both
strings are read up to their first NUL code unit (the end of the list is the
terminator), lower-cased unit by unit, and the difference of the first pair of
units that differ is returned; `0` means equal. -/
def _wcsicmp : wstring → wstring → Int
  | [], [] => 0
  | [], b :: _ => - (towlower b : Int)
  | a :: _, [] => (towlower a : Int)
  | a :: as, b :: bs =>
    if towlower a ≠ towlower b then (towlower a : Int) - (towlower b : Int)
    else if towlower a = 0 then 0
    else _wcsicmp as bs

/-! ## Settings and matcher -/

/-- The global `g_settings`. -/
structure Settings where
  hideRotateLeft : Bool
  hideRotateRight : Bool
  hideSetAsDesktopBackground : Bool
  customLabels : List wstring
  deriving DecidableEq, Repr

/-- Source lines 114-123. -/
def ShouldHideByIcon (g_settings : Settings) (svgUri : wstring) : Bool :=
  if svgUri.isEmpty then false
  else if g_settings.hideRotateLeft && (find svgUri ICON_ROTATE_LEFT).isSome then true
  else if g_settings.hideRotateRight && (find svgUri ICON_ROTATE_RIGHT).isSome then true
  else if g_settings.hideSetAsDesktopBackground && (find svgUri ICON_WALLPAPER).isSome then true
  else false

/-- Source lines 125-131. -/
def ShouldHideByLabel (g_settings : Settings) (labelText : wstring) : Bool :=
  if labelText.isEmpty then false
  else g_settings.customLabels.any (fun custom => _wcsicmp labelText custom == 0)

/-! ## Words of the specification about strings -/

/-- The string `s` as a NUL-terminated string: its code units before the
first NUL. -/
def c_str (s : wstring) : wstring := s.takeWhile (· ≠ 0)

/-- Case-insensitive equality of two whole strings. -/
def equalsIgnoreCase (a b : wstring) : Prop := a.map towlower = b.map towlower

instance (a b : wstring) : Decidable (equalsIgnoreCase a b) := by
  unfold equalsIgnoreCase; infer_instance

/-! ## The live XAML tree -/

/-- `mux::Visibility`. -/
inductive Visibility where
  | Visible
  | Collapsed
  deriving DecidableEq, Repr

/-- What `ImageIcon.Source()` can hold: an `SvgImageSource` with its
`UriSource()` (possibly null, otherwise its `AbsoluteUri()`), or some other
image source. -/
inductive ImageSource where
  | svgImageSource (uriSource : Option wstring)
  | other
  deriving DecidableEq, Repr

/-- What `AppBarButton.Icon()` can hold: an `ImageIcon` with its `Source()`
(possibly null), or some other icon element. -/
inductive IconElement where
  | imageIcon (source : Option ImageSource)
  | other
  deriving DecidableEq, Repr

/-- The runtime classes the program casts a `FrameworkElement` to. -/
inductive Control where
  | textBlock (text : wstring)
  | appBarButton (label : wstring) (icon : Option IconElement)
  | other
  deriving DecidableEq, Repr

/-- The read-only part of a `FrameworkElement`.  `UIElement` has no direct
subclass besides `FrameworkElement`, so the casts `try_as<mux::UIElement>` and
`try_as<mux::FrameworkElement>` succeed on the same objects. -/
structure FrameworkElement where
  className : wstring
  name : wstring
  control : Control
  deriving DecidableEq, Repr

/-- An object of the visual tree.  Objects are addressed by their index in
`World.tree`; `element` is the result of the cast to `FrameworkElement`, `none`
when the cast gives null. -/
structure DependencyObject where
  parent : Option Nat
  children : List Nat
  element : Option FrameworkElement
  deriving DecidableEq, Repr

/-- The two callbacks the program registers for `UIElement::VisibilityProperty`:
the function `ReHideCallback` and the lambda of source lines 228-262. -/
inductive Callback where
  | ReHideCallback
  | deferredCheck
  deriving DecidableEq, Repr

/-- One line written by `Wh_Log`. -/
inductive LogLine where
  | text (format : String) (arg : wstring)
  | code (format : String) (hr : Nat)
  deriving DecidableEq, Repr

/-- Everything the button processing reads or writes: the globals
`g_disabled` and `g_settings`, the tree, the `Visibility` property of each
object, the callbacks registered on each object's `VisibilityProperty` (oldest
first), the tasks enqueued on the dispatcher queue with low priority (each is
the lambda of source lines 250-260 with its captured `refFe`), and the log. -/
structure World where
  g_disabled : Bool
  g_settings : Settings
  tree : List DependencyObject
  visibility : Nat → Visibility
  callbacks : Nat → List Callback
  idleQueue : List Nat
  log : List LogLine

/-- The cast `try_as<mux::FrameworkElement>()` (and `try_as<mux::UIElement>()`)
of the object behind a handle; `none` is the null result. -/
def World.try_as_FrameworkElement (w : World) (h : Nat) : Option FrameworkElement :=
  (w.tree[h]?).bind (·.element)

/-- The call `muxm::VisualTreeHelper::GetParent`. -/
def GetParent (w : World) (h : Nat) : Option Nat :=
  (w.tree[h]?).bind (·.parent)

/-- The children enumerated by `GetChildrenCount` and `GetChild`. -/
def GetChildren (w : World) (h : Nat) : List Nat :=
  match w.tree[h]? with
  | some o => o.children
  | none => []

/-- The property setter `Visibility(v)`.  The change notification a write
raises is delivered by `notifyVisibilityChanged`; every write the program makes
stores `Collapsed`, and both callbacks it registers return at their visibility
guard for a collapsed sender, so such a write is the store alone. -/
def World.setVisibility (w : World) (h : Nat) (v : Visibility) : World :=
  { w with visibility := Function.update w.visibility h v }

/-- The call `RegisterPropertyChangedCallback(VisibilityProperty(), cb)`. -/
def World.RegisterPropertyChangedCallback (w : World) (h : Nat) (cb : Callback) : World :=
  { w with callbacks := Function.update w.callbacks h (w.callbacks h ++ [cb]) }

/-- The call `DispatcherQueue().TryEnqueue(Low, ...)` with the captured element. -/
def World.TryEnqueue (w : World) (refFe : Nat) : World :=
  { w with idleQueue := w.idleQueue ++ [refFe] }

/-- The call `Wh_Log(format, arg.c_str())` with a `%s` format: the argument is
passed as a NUL-terminated string, so the text logged is the code units of
`arg` before its first NUL. -/
def World.Wh_Log (w : World) (format : String) (arg : wstring) : World :=
  { w with log := w.log ++ [LogLine.text format (c_str arg)] }

/-! ## Signals -/

/-- Source lines 95-112. -/
def GetButtonSvgUri (w : World) (element : Nat) : wstring :=
  match w.try_as_FrameworkElement element with
  | some fe =>
    match fe.control with
    | .appBarButton _ icon =>
      match icon with
      | some (.imageIcon source) =>
        match source with
        | some (.svgImageSource uri) =>
          match uri with
          | some absoluteUri => absoluteUri
          | none => []
        | _ => []
      | _ => []
    | _ => []
  | none => []

/-- Source lines 137-148.  The recursion of the source has no depth bound; the
first argument bounds it here, and a tree of `n` objects without cycles is
searched completely with bound `n`. -/
def FindChildByName (w : World) (name : wstring) : Nat → Nat → Option Nat
  | 0, _ => none
  | depth + 1, parent =>
    (GetChildren w parent).findSome? fun child =>
      match w.try_as_FrameworkElement child with
      | some fe =>
        if fe.name = name then some child else FindChildByName w name depth child
      | none => FindChildByName w name depth child

/-- Source lines 150-162. -/
def GetAppBarButtonLabelText (w : World) (element : Nat) : wstring :=
  let viaTextLabel : Option wstring :=
    match FindChildByName w (L "TextLabel") w.tree.length element with
    | some textLabel =>
      match w.try_as_FrameworkElement textLabel with
      | some fe =>
        match fe.control with
        | .textBlock text => some text
        | _ => none
      | none => none
    | none => none
  match viaTextLabel with
  | some text => text
  | none =>
    match w.try_as_FrameworkElement element with
    | some fe =>
      match fe.control with
      | .appBarButton label _ => if label.isEmpty then [] else label
      | _ => []
    | none => []

/-! ## Button processing -/

/-- First loop of `HideAdjacentSeparator` (source lines 173-176): the first
index `i`, counting up from the second argument, whose child is an element
identical to `hiddenButton`.  The first argument is the number of indices left
to visit. -/
def findButtonIndex (w : World) (children : List Nat) (hiddenButton : Nat) :
    Nat → Nat → Option Nat
  | 0, _ => none
  | n + 1, i =>
    match children[i]? with
    | some child =>
      if (w.try_as_FrameworkElement child).isSome ∧ child = hiddenButton then some i
      else findButtonIndex w children hiddenButton n (i + 1)
    | none => findButtonIndex w children hiddenButton n (i + 1)

/-- Second loop of `HideAdjacentSeparator` (source lines 178-186), entered with
`i + 1` where `i` is the index to visit next; it counts down to index `0`. -/
def collapseSeparatorBefore (w : World) (children : List Nat) : Nat → World
  | 0 => w
  | i + 1 =>
    match children[i]? with
    | some child =>
      match w.try_as_FrameworkElement child with
      | some fe =>
        if w.visibility child ≠ Visibility.Visible then collapseSeparatorBefore w children i
        else if (find fe.className (L "AppBarSeparator")).isSome then
          w.setVisibility child Visibility.Collapsed
        else w
      | none => collapseSeparatorBefore w children i
    | none => collapseSeparatorBefore w children i

/-- Source lines 168-187. -/
def HideAdjacentSeparator (hiddenButton : Nat) (w : World) : World :=
  match GetParent w hiddenButton with
  | none => w
  | some parent =>
    let children := GetChildren w parent
    match findButtonIndex w children hiddenButton children.length 0 with
    | none => w
    | some btnIndex => collapseSeparatorBefore w children btnIndex

/-- Source lines 189-200. -/
def ReHideCallback (sender : Nat) (w : World) : World :=
  if w.g_disabled then w
  else
    match w.try_as_FrameworkElement sender with
    | none => w
    | some _ =>
      if w.visibility sender = Visibility.Collapsed then w
      else
        let uri := GetButtonSvgUri w sender
        let label := GetAppBarButtonLabelText w sender
        if ShouldHideByIcon w.g_settings uri || ShouldHideByLabel w.g_settings label then
          HideAdjacentSeparator sender
            ((w.Wh_Log "Re-hiding: %s" label).setVisibility sender Visibility.Collapsed)
        else w

/-- Source lines 202-207. -/
def HideButton (fe : Nat) (reason : wstring) (w : World) : World :=
  (HideAdjacentSeparator fe
    ((w.Wh_Log "Hiding button: %s" reason).setVisibility fe Visibility.Collapsed)
  ).RegisterPropertyChangedCallback fe Callback.ReHideCallback

/-- The task enqueued at source lines 248-260, run with its captured `refFe`. -/
def layoutDeferredCheck (refFe : Nat) (w : World) : World :=
  if w.g_disabled then w
  else
    let u := GetButtonSvgUri w refFe
    let l := GetAppBarButtonLabelText w refFe
    if ShouldHideByIcon w.g_settings u || ShouldHideByLabel w.g_settings l then
      HideAdjacentSeparator refFe
        ((w.Wh_Log "Layout-deferred hide: %s" (if l.isEmpty then u else l)).setVisibility
          refFe Visibility.Collapsed)
    else w

/-- The visibility callback registered at source lines 226-262. -/
def deferredCheck (sender : Nat) (w : World) : World :=
  if w.g_disabled then w
  else
    match w.try_as_FrameworkElement sender with
    | none => w
    | some _ =>
      if w.visibility sender ≠ Visibility.Visible then w
      else
        let uri := GetButtonSvgUri w sender
        let label := GetAppBarButtonLabelText w sender
        if ShouldHideByIcon w.g_settings uri || ShouldHideByLabel w.g_settings label then
          (HideAdjacentSeparator sender
            ((w.Wh_Log "Deferred hiding: %s" (if label.isEmpty then uri else label)).setVisibility
              sender Visibility.Collapsed)
          ).RegisterPropertyChangedCallback sender Callback.ReHideCallback
        else if uri.isEmpty && label.isEmpty then w.TryEnqueue sender
        else w

/-- Source lines 209-264.  A null `element` is a handle that is not a
`FrameworkElement`. -/
def ProcessAppBarButton (element : Nat) (w : World) : World :=
  if (w.try_as_FrameworkElement element).isNone then w
  else
    let labelText := GetAppBarButtonLabelText w element
    let svgUri := GetButtonSvgUri w element
    if ShouldHideByIcon w.g_settings svgUri then
      HideButton element (if labelText.isEmpty then svgUri else labelText) w
    else if !labelText.isEmpty && ShouldHideByLabel w.g_settings labelText then
      HideButton element labelText w
    else if labelText.isEmpty && svgUri.isEmpty then
      w.RegisterPropertyChangedCallback element Callback.deferredCheck
    else w

/-! ## Events raised by the framework and the host -/

/-- Invocation of one registered callback with `sender`. -/
def runCallback (sender : Nat) (w : World) (cb : Callback) : World :=
  match cb with
  | .ReHideCallback => ReHideCallback sender w
  | .deferredCheck => deferredCheck sender w

/-- The framework's notification after the `Visibility` of `sender` changed:
every callback registered on it at that moment runs, oldest first. -/
def notifyVisibilityChanged (sender : Nat) (w : World) : World :=
  (w.callbacks sender).foldl (runCallback sender) w

/-- An actor outside the program (the host UI) assigns the `Visibility` of
an object; a change of value notifies the registered callbacks. -/
def hostSetVisibility (h : Nat) (v : Visibility) (w : World) : World :=
  if w.visibility h = v then w
  else notifyVisibilityChanged h (w.setVisibility h v)

/-- The dispatcher runs the oldest low-priority task. -/
def runIdleTask (w : World) : World :=
  match w.idleQueue with
  | [] => w
  | refFe :: rest => layoutDeferredCheck refFe { w with idleQueue := rest }

/-- The dispatcher runs every low-priority task in the queue, oldest first. -/
def drainIdleQueue (w : World) : World :=
  runIdleTask^[w.idleQueue.length] w

/-! ## Mutation observer -/

/-- An `HRESULT`, as the unsigned value of its 32 bits. -/
abbrev HRESULT := Nat

/-- The success code. -/
def S_OK : HRESULT := 0

/-- The test `FAILED(hr)`: the sign bit is set. -/
def FAILED (hr : HRESULT) : Bool := decide (2 ^ 31 ≤ hr)

/-- `VisualMutationType` of `xamlom.h`. -/
inductive VisualMutationType where
  | Add
  | Remove
  deriving DecidableEq, Repr

/-- The fields of `VisualElement` the observer reads: the instance handle and
the two nullable NUL-terminated strings `Type` (here `TypeName`, `Type` being
reserved) and `Name`. -/
structure VisualElement where
  Handle : Nat
  TypeName : Option wstring
  Name : Option wstring
  deriving DecidableEq, Repr

/-- The calls `OnVisualTreeChange` makes into the diagnostics service, the
framework and the button processor.  Each call that can raise a C++ exception
returns either its value or the `HRESULT` thrown; `ProcessAppBarButton` returns
the exception it raised, if any, and the world as it left it.
`GetIInspectableFromHandle` returns its `HRESULT` and the object (null when the
handle no longer resolves). -/
structure Calls where
  GetIInspectableFromHandle : Nat → HRESULT × Option Nat
  try_as_FrameworkElement : World → Nat → Bool
  GetParent : World → Nat → Except HRESULT (Option Nat)
  get_class_name : World → Nat → Except HRESULT wstring
  ProcessAppBarButton : Nat → World → Option HRESULT × World

/-- Source lines 296-301: `check_hresult` throws a failure code. -/
def FromHandle (c : Calls) (handle : Nat) : Except HRESULT (Option Nat) :=
  match c.GetIInspectableFromHandle handle with
  | (hr, obj) => if FAILED hr then Except.error hr else Except.ok obj

/-- Source lines 350-354, the body of the `try` block of strategy 1. -/
def directButton (c : Calls) (element : VisualElement) (w : World) : Option HRESULT × World :=
  match FromHandle c element.Handle with
  | Except.error hr => (some hr, w)
  | Except.ok obj =>
    match obj with
    | some fe => if c.try_as_FrameworkElement w fe then c.ProcessAppBarButton fe w else (none, w)
    | none => (none, w)

/-- Source lines 366-376, the loop `for (depth = 0; depth < 10 && current; depth++)`;
the first argument is `10 - depth`. -/
def ancestorWalk (c : Calls) : Nat → Option Nat → World → Option HRESULT × World
  | 0, _, w => (none, w)
  | _ + 1, none, w => (none, w)
  | n + 1, some current, w =>
    if c.try_as_FrameworkElement w current then
      match c.get_class_name w current with
      | Except.error hr => (some hr, w)
      | Except.ok cn =>
        if (find cn (L "AppBarButton")).isSome then c.ProcessAppBarButton current w
        else
          match c.GetParent w current with
          | Except.error hr => (some hr, w)
          | Except.ok next => ancestorWalk c n next w
    else
      match c.GetParent w current with
      | Except.error hr => (some hr, w)
      | Except.ok next => ancestorWalk c n next w

/-- Source lines 362-377, the body of the `try` block of strategy 2. -/
def textLabelAdded (c : Calls) (element : VisualElement) (w : World) : Option HRESULT × World :=
  match FromHandle c element.Handle with
  | Except.error hr => (some hr, w)
  | Except.ok obj =>
    match obj with
    | some fe =>
      if c.try_as_FrameworkElement w fe then
        match c.GetParent w fe with
        | Except.error hr => (some hr, w)
        | Except.ok current => ancestorWalk c 10 current w
      else (none, w)
    | none => (none, w)

/-- Source lines 344-381, the body of the function `try` block: the value
returned, or the exception that leaves the body, and the world. -/
def OnVisualTreeChangeBody (c : Calls) (element : VisualElement)
    (mutationType : VisualMutationType) (w : World) : Except HRESULT HRESULT × World :=
  if w.g_disabled ∨ mutationType ≠ VisualMutationType.Add ∨ element.TypeName = none then
    (Except.ok S_OK, w)
  else
    let typeName := element.TypeName.getD []
    if (find typeName (L "AppBarButton")).isSome then
      (Except.ok S_OK, (directButton c element w).2)
    else
      let elName := element.Name.getD []
      if elName = L "TextLabel" ∧ (find typeName (L "TextBlock")).isSome then
        (Except.ok S_OK, (textLabelAdded c element w).2)
      else (Except.ok S_OK, w)

/-- Source lines 341-387: the body with the handler `catch (...)` of the
function `try` block, which logs and returns `S_OK`.  The result is the
`HRESULT` returned to the diagnostics channel, or the exception propagated to
it, and the world. -/
def OnVisualTreeChange (c : Calls) (element : VisualElement)
    (mutationType : VisualMutationType) (w : World) : Except HRESULT HRESULT × World :=
  match OnVisualTreeChangeBody c element mutationType w with
  | (Except.ok hr, w') => (Except.ok hr, w')
  | (Except.error hr, w') =>
    (Except.ok S_OK, { w' with log := w'.log ++ [LogLine.code "OnVisualTreeChange error %08X" hr] })

/-- The calls as the live tree answers them, none of which raises: the casts,
`GetParent` and `get_class_name` read the tree; the diagnostics service and
the button processor are given. -/
def treeCalls (diag : Nat → HRESULT × Option Nat)
    (process : Nat → World → Option HRESULT × World) : Calls where
  GetIInspectableFromHandle := diag
  try_as_FrameworkElement := fun w h => (w.try_as_FrameworkElement h).isSome
  GetParent := fun w h => Except.ok (GetParent w h)
  get_class_name := fun w h =>
    Except.ok (match w.try_as_FrameworkElement h with
      | some fe => fe.className
      | none => [])
  ProcessAppBarButton := process

/-- The calls of the program itself: the button processor is
`ProcessAppBarButton`. -/
def programCalls (diag : Nat → HRESULT × Option Nat) : Calls :=
  treeCalls diag (fun h w => (none, ProcessAppBarButton h w))

/-! ## Words of the specification about mutation events -/

/-- The handle resolves to a framework element. -/
def resolvesToElement (diag : Nat → HRESULT × Option Nat) (w : World) (handle : Nat) :
    Option Nat :=
  if FAILED (diag handle).1 then none
  else (diag handle).2.filter fun o => (w.try_as_FrameworkElement o).isSome

/-- The nearest `n` ancestors of an object, nearest first. -/
def ancestors (w : World) : Nat → Nat → List Nat
  | 0, _ => []
  | n + 1, h =>
    match GetParent w h with
    | some p => p :: ancestors w n p
    | none => []

/-- The object has a class name containing "AppBarButton". -/
def hasAppBarButtonClass (w : World) (a : Nat) : Bool :=
  match w.try_as_FrameworkElement a with
  | some fe => decide (L "AppBarButton" <:+: fe.className)
  | none => false

/-- The element the Button Processor is invoked on for a mutation event, if
any, in the words of the specification. -/
def dispatchTarget (diag : Nat → HRESULT × Option Nat) (w : World) (element : VisualElement)
    (mutationType : VisualMutationType) : Option Nat :=
  if w.g_disabled = false ∧ mutationType = VisualMutationType.Add then
    match element.TypeName with
    | none => none
    | some typeName =>
      if L "AppBarButton" <:+: typeName then resolvesToElement diag w element.Handle
      else if element.Name = some (L "TextLabel") ∧ L "TextBlock" <:+: typeName then
        match resolvesToElement diag w element.Handle with
        | some fe => (ancestors w 10 fe).find? (hasAppBarButtonClass w)
        | none => none
      else none
  else none

/-! ## TAP injection -/

/-- The macro `HRESULT_FROM_WIN32`. -/
def HRESULT_FROM_WIN32 (x : Nat) : HRESULT :=
  if x = 0 ∨ 2 ^ 31 ≤ x then x else x % 65536 + 0x80070000

/-- The Win32 error code `ERROR_NOT_FOUND`. -/
def ERROR_NOT_FOUND : Nat := 1168

/-- The constant `MAX_PATH`, the size of the buffer `location`. -/
def MAX_PATH : Nat := 260

/-- What `InjectWindhawkTAP` obtains from the operating system: the module
handle of the mod, the return value of `GetModuleFileName` and the path it
wrote, the module handle of `Microsoft.Internal.FrameworkUdk.dll`, the address
of `InitializeXamlDiagnosticsEx` in it (called with the connection name and
the path; it may change the host state `σ`), the value of `GetLastError()` after
a failed step, and the indeterminate initial content of the local `hr`. -/
structure Host (σ : Type) where
  GetCurrentModuleHandle : Option Nat
  GetModuleFileName : Nat × wstring
  FrameworkUdk : Option Nat
  InitializeXamlDiagnosticsEx : Option (wstring → wstring → σ → HRESULT × σ)
  GetLastError : Nat
  hr : HRESULT

/-- The name `wsprintf` writes for `L"WinUIVisualDiagConnection%d"` and `n`. -/
def connectionName (n : Nat) : wstring :=
  L "WinUIVisualDiagConnection" ++ L (Nat.repr n)

/-- Source lines 501-509, the loop `for (int i = 0; i < 10000; i++)`, with
`ixde` the call of line 505 for a connection name; the first argument is
`10000 - i`, the third the current content of `hr`. -/
def connectLoop {σ : Type} (ixde : wstring → σ → HRESULT × σ) :
    Nat → Nat → HRESULT → σ → HRESULT × σ
  | 0, _, hr, s => (hr, s)
  | n + 1, i, _, s =>
    match ixde (connectionName (i + 1)) s with
    | (hr, s') =>
      if hr ≠ HRESULT_FROM_WIN32 ERROR_NOT_FOUND then (hr, s')
      else connectLoop ixde n (i + 1) hr s'

/-- Source lines 478-514.  The flag `g_inInjectWindhawkTAP` is set around the
loop and read nowhere; it is left out. -/
def InjectWindhawkTAP {σ : Type} (host : Host σ) (s : σ) : HRESULT × σ :=
  match host.GetCurrentModuleHandle with
  | none => (HRESULT_FROM_WIN32 host.GetLastError, s)
  | some _ =>
    if host.GetModuleFileName.1 = 0 ∨ host.GetModuleFileName.1 = MAX_PATH then
      (HRESULT_FROM_WIN32 host.GetLastError, s)
    else
      match host.FrameworkUdk with
      | none => (HRESULT_FROM_WIN32 host.GetLastError, s)
      | some _ =>
        match host.InitializeXamlDiagnosticsEx with
        | none => (HRESULT_FROM_WIN32 host.GetLastError, s)
        | some ixde =>
          connectLoop (fun name => ixde name host.GetModuleFileName.2) 10000 0 host.hr s

/-! ## Words of the specification about the channel search -/

/-- The channel identifiers number `i + 1` to `i + k`, in increasing order. -/
def candidateNames (i k : Nat) : List wstring :=
  (List.range k).map fun j => connectionName (i + j + 1)

/-- Registration is attempted with each name of the list in turn, whatever
the results: the results in order and the host state after the last attempt. -/
def attemptAll {σ : Type} (ixde : wstring → σ → HRESULT × σ) : List wstring → σ → List HRESULT × σ
  | [], s => ([], s)
  | name :: rest, s =>
    ((ixde name s).1 :: (attemptAll ixde rest (ixde name s).2).1,
      (attemptAll ixde rest (ixde name s).2).2)

/-- The outcome "registration was attempted with exactly the first `k`
identifiers after number `i`; all attempts but the last reported not found;
the last attempt's result is `hr` and the host is left in state `s'`". -/
def firstAccepted {σ : Type} (ixde : wstring → σ → HRESULT × σ) (i k : Nat) (s : σ)
    (hr : HRESULT) (s' : σ) : Prop :=
  (attemptAll ixde (candidateNames i k) s).2 = s' ∧
  (attemptAll ixde (candidateNames i k) s).1.getLast? = some hr ∧
  ∀ r ∈ (attemptAll ixde (candidateNames i k) s).1.dropLast, r = HRESULT_FROM_WIN32 ERROR_NOT_FOUND

/-- A host in which every lookup succeeds and the third connection name is
accepted; its state counts the registration attempts. -/
def thirdChannelHost : Host Nat where
  GetCurrentModuleHandle := some 1
  GetModuleFileName := (10, L "C:/mod.dll")
  FrameworkUdk := some 2
  InitializeXamlDiagnosticsEx := some fun name _ s =>
    if name = L "WinUIVisualDiagConnection3" then (S_OK, s + 1)
    else (HRESULT_FROM_WIN32 ERROR_NOT_FOUND, s + 1)
  GetLastError := 0
  hr := 0

/-! ## Attach and detach -/

/-- The code `E_NOINTERFACE` a failed `site.as<IXamlDiagnostics>()` throws. -/
def E_NOINTERFACE : HRESULT := 0x80004002

/-- A `VisualTreeWatcher` object: its identity and the site whose
`IXamlDiagnostics` it holds in `m_XamlDiagnostics`. -/
structure VisualTreeWatcher where
  id : Nat
  site : Nat
  deriving DecidableEq, Repr

/-- The code `E_FAIL`. -/
def E_FAIL : HRESULT := 0x80004005

/-- What the registration code obtains from outside: whether a site answers
the query for `IXamlDiagnostics`, whether `CreateThread` gives a thread for the
watcher with a given identity, and the `HRESULT` of the service calls
`AdviseVisualTreeChange` and `UnadviseVisualTreeChange` for a watcher. -/
structure Diagnostics where
  isXamlDiagnostics : Nat → Bool
  CreateThread : Nat → Bool
  AdviseVisualTreeChange : VisualTreeWatcher → HRESULT
  UnadviseVisualTreeChange : VisualTreeWatcher → HRESULT

/-- The state of attachment: the globals `g_initialized` and
`g_visualTreeWatcher`, the watchers currently advised at their diagnostics
service (the live registrations), the threads started by watcher constructors
that have not run yet, the number of watchers constructed so far, and the
state of the host behind `InitializeXamlDiagnosticsEx` (a list of strings: the
connection names it was called with, when the host records them).  The lines
written by `Wh_Log` are left out of this state. -/
structure Registration where
  g_initialized : Bool
  g_visualTreeWatcher : Option VisualTreeWatcher
  advised : List VisualTreeWatcher
  adviseThreads : List VisualTreeWatcher
  constructed : Nat
  channel : List wstring
  deriving DecidableEq, Repr

/-- The state when the mod is loaded. -/
def Registration.initial : Registration := ⟨false, none, [], [], 0, []⟩

/-- Source lines 333-339.  When the service call succeeds the watcher is no
longer among the advised callbacks; when it fails the advised callbacks are as
before, and the program only logs the failure and goes on. -/
def UnadviseVisualTreeChange (d : Diagnostics) (watcher : VisualTreeWatcher)
    (s : Registration) : Registration :=
  if FAILED (d.UnadviseVisualTreeChange watcher) then s
  else { s with advised := s.advised.filter (· ≠ watcher) }

/-- Source lines 306-327: the constructor.  It throws when the site does not
give `IXamlDiagnostics`; otherwise the new watcher exists and, when
`CreateThread` succeeded, the thread that will advise it has been started. -/
def constructVisualTreeWatcher (d : Diagnostics) (site : Nat) (s : Registration) :
    Except HRESULT VisualTreeWatcher × Registration :=
  if d.isXamlDiagnostics site then
    if d.CreateThread s.constructed then
      (Except.ok ⟨s.constructed, site⟩,
        { s with constructed := s.constructed + 1,
                 adviseThreads := s.adviseThreads ++ [⟨s.constructed, site⟩] })
    else (Except.ok ⟨s.constructed, site⟩, { s with constructed := s.constructed + 1 })
  else (Except.error E_NOINTERFACE, s)

/-- Source lines 313-321: the body of the thread the constructor starts. -/
def adviseThread (d : Diagnostics) (watcher : VisualTreeWatcher) (s : Registration) :
    Registration :=
  if FAILED (d.AdviseVisualTreeChange watcher) then s
  else { s with advised := s.advised ++ [watcher] }

/-- Source lines 410-426.  The member `site` of the TAP object serves `GetSite`
only and is left out. -/
def SetSite (d : Diagnostics) (pUnkSite : Option Nat) (s : Registration) :
    HRESULT × Registration :=
  match pUnkSite with
  | some site =>
    let s1 :=
      match s.g_visualTreeWatcher with
      | some watcher =>
        { UnadviseVisualTreeChange d watcher s with g_visualTreeWatcher := none }
      | none => s
    match constructVisualTreeWatcher d site s1 with
    | (Except.ok watcher, s2) => (S_OK, { s2 with g_visualTreeWatcher := some watcher })
    | (Except.error hr, s2) => (hr, s2)
  | none =>
    match s.g_visualTreeWatcher with
    | some watcher =>
      (S_OK, { UnadviseVisualTreeChange d watcher s with g_visualTreeWatcher := none })
    | none => (S_OK, s)

/-- Source lines 516-524: `g_initialized.exchange(true)` and, when the flag
was clear, the injection. -/
def InitializeSettingsAndTap (host : Host (List wstring)) (s : Registration) : Registration :=
  if s.g_initialized then s
  else { s with g_initialized := true, channel := (InjectWindhawkTAP host s.channel).2 }

/-- Source lines 526-532. -/
def UninitializeSettingsAndTap (d : Diagnostics) (s : Registration) : Registration :=
  match s.g_visualTreeWatcher with
  | some watcher =>
    { UnadviseVisualTreeChange d watcher { s with g_initialized := false } with
      g_visualTreeWatcher := none }
  | none => { s with g_initialized := false }

/-- What can happen to the attachment state: the target-window-created
notification, a site assignment, the teardown, and the oldest started advise
thread getting to run. -/
inductive LifecycleEvent where
  | targetWindowCreated
  | SetSite (pUnkSite : Option Nat)
  | teardown
  | adviseThreadRuns
  deriving DecidableEq, Repr

/-- One event. -/
def lifecycleStep (d : Diagnostics) (host : Host (List wstring)) (s : Registration) :
    LifecycleEvent → Registration
  | .targetWindowCreated => InitializeSettingsAndTap host s
  | .SetSite pUnkSite => (SetSite d pUnkSite s).2
  | .teardown => UninitializeSettingsAndTap d s
  | .adviseThreadRuns =>
    match s.adviseThreads with
    | [] => s
    | watcher :: rest => adviseThread d watcher { s with adviseThreads := rest }

/-- A sequence of events from the initial state. -/
def lifecycleRun (d : Diagnostics) (host : Host (List wstring)) (events : List LifecycleEvent) :
    Registration :=
  events.foldl (lifecycleStep d host) Registration.initial

/-- The schedule in which the advise thread a call may have started runs
before the next call. -/
def threadsKeepUp (calls : List LifecycleEvent) : List LifecycleEvent :=
  calls.flatMap fun call => [call, LifecycleEvent.adviseThreadRuns]

/-- The attachment is settled: no advise thread is outstanding, and what is
advised is nothing or exactly the watcher `g_visualTreeWatcher` holds. -/
def settled (s : Registration) : Prop :=
  s.adviseThreads = [] ∧
    (s.advised = [] ∨ ∃ watcher, s.advised = [watcher] ∧ s.g_visualTreeWatcher = some watcher)

/-- A diagnostics service on which every step succeeds. -/
def willingDiagnostics : Diagnostics :=
  ⟨fun _ => true, fun _ => true, fun _ => S_OK, fun _ => S_OK⟩

/-- A diagnostics service on which every step succeeds except
`UnadviseVisualTreeChange`, which fails with `E_FAIL`. -/
def stubbornDiagnostics : Diagnostics :=
  ⟨fun _ => true, fun _ => true, fun _ => S_OK, fun _ => E_FAIL⟩

/-- Every `UnadviseVisualTreeChange` call of the service succeeds. -/
def unadviseSucceeds (d : Diagnostics) : Prop :=
  ∀ watcher, FAILED (d.UnadviseVisualTreeChange watcher) = false

/-- A host whose entry point accepts the first connection name and records the
names it is called with. -/
def recordingHost : Host (List wstring) where
  GetCurrentModuleHandle := some 1
  GetModuleFileName := (10, L "C:/mod.dll")
  FrameworkUdk := some 2
  InitializeXamlDiagnosticsEx := some fun name _ names => (S_OK, names ++ [name])
  GetLastError := 0
  hr := 0

/-! ## Words of the specification about siblings -/

/-- The sibling is an element whose visibility is `Visible`. -/
def isVisibleElement (w : World) (c : Nat) : Bool :=
  (w.try_as_FrameworkElement c).isSome && decide (w.visibility c = Visibility.Visible)

/-- The object's class name denotes a separator: it contains
"AppBarSeparator". -/
def isSeparator (w : World) (c : Nat) : Bool :=
  match w.try_as_FrameworkElement c with
  | some fe => decide (L "AppBarSeparator" <:+: fe.className)
  | none => false

/-- Scanning backward from index `k - 1` and skipping siblings that are not
visible: the first visible sibling, if there is one. -/
def firstVisibleBefore (w : World) (siblings : List Nat) (k : Nat) : Option Nat :=
  (siblings.take k).reverse.find? (isVisibleElement w)

/-- The element `hiddenButton` is located at index `k` among `siblings`: it is
there and at no smaller index. -/
def locatedAt (w : World) (siblings : List Nat) (hiddenButton k : Nat) : Prop :=
  siblings[k]? = some hiddenButton ∧ (w.try_as_FrameworkElement hiddenButton).isSome = true ∧
    ∀ j, j < k → siblings[j]? ≠ some hiddenButton

/-- What separator suppression does according to the specification, given
the siblings and the index of the hidden element. -/
def suppressPrecedingSeparator (w : World) (siblings : List Nat) (k : Nat) : World :=
  match firstVisibleBefore w siblings k with
  | some s => if isSeparator w s then w.setVisibility s Visibility.Collapsed else w
  | none => w

instance (w : World) (siblings : List Nat) (hiddenButton k : Nat) :
    Decidable (locatedAt w siblings hiddenButton k) := by
  unfold locatedAt; infer_instance

/-! ## Sample data -/

/-- A framework element of the given class with no name and no content. -/
def plainElement (className : String) : FrameworkElement :=
  ⟨L className, [], Control.other⟩

/-- An `AppBarButton` with the given label and SVG icon URI. -/
def buttonElement (label uri : String) : FrameworkElement :=
  ⟨L "Microsoft.UI.Xaml.Controls.AppBarButton", [],
    Control.appBarButton (L label)
      (some (IconElement.imageIcon (some (ImageSource.svgImageSource (some (L uri))))))⟩

/-- An `AppBarButton` with the given label and no icon. -/
def labelOnlyButton (label : String) : FrameworkElement :=
  ⟨L "Microsoft.UI.Xaml.Controls.AppBarButton", [], Control.appBarButton (L label) none⟩

/-- The rule set of the specification's concrete scenario. -/
def scenarioSettings : Settings := ⟨true, false, false, [L "Share"]⟩

/-- A command bar (object 0) holding a separator (1), a collapsed button (2),
a second separator (3) and a "Share" button with the rotate-left icon (4);
nothing is registered, queued or logged yet. -/
def commandBar : World where
  g_disabled := false
  g_settings := scenarioSettings
  tree := [
    ⟨none, [1, 2, 3, 4], some (plainElement "Microsoft.UI.Xaml.Controls.CommandBar")⟩,
    ⟨some 0, [], some (plainElement "Microsoft.UI.Xaml.Controls.AppBarSeparator")⟩,
    ⟨some 0, [], some (labelOnlyButton "Cut")⟩,
    ⟨some 0, [], some (plainElement "Microsoft.UI.Xaml.Controls.AppBarSeparator")⟩,
    ⟨some 0, [], some (buttonElement "Share" "ms-appx:///Files/windows.rotate270.svg")⟩]
  visibility := fun h => if h = 2 then Visibility.Collapsed else Visibility.Visible
  callbacks := fun _ => []
  idleQueue := []
  log := []

/-- The element's current signals match the current rule set (the test of
source lines 195, 236 and 254). -/
def signalsMatch (w : World) (h : Nat) : Bool :=
  ShouldHideByIcon w.g_settings (GetButtonSvgUri w h) ||
    ShouldHideByLabel w.g_settings (GetAppBarButtonLabelText w h)

/-- The sample command bar after `HideButton` ran on the "Share" button. -/
def hiddenShare : World := HideButton 4 (L "Share") commandBar

/-- A command bar (object 0) holding one freshly created `AppBarButton`
(object 1) that has neither icon nor label yet and is still collapsed. -/
def freshButtonBar : World where
  g_disabled := false
  g_settings := scenarioSettings
  tree := [
    ⟨none, [1], some (plainElement "Microsoft.UI.Xaml.Controls.CommandBar")⟩,
    ⟨some 0, [], some (labelOnlyButton "")⟩]
  visibility := fun h => if h = 1 then Visibility.Collapsed else Visibility.Visible
  callbacks := fun _ => []
  idleQueue := []
  log := []

/-- An actor outside the program assigns the label "Share" to the button of
`freshButtonBar`; nothing else of the world changes. -/
def populateShareLabel (w : World) : World :=
  { w with tree := [
      ⟨none, [1], some (plainElement "Microsoft.UI.Xaml.Controls.CommandBar")⟩,
      ⟨some 0, [], some (labelOnlyButton "Share")⟩] }

/-- A text label (object 11) below ten plain elements (objects 10 down to 1)
below an `AppBarButton` (object 0): the button is the eleventh ancestor of the
label and the tenth ancestor of object 10. -/
def deepLabel : World where
  g_disabled := false
  g_settings := scenarioSettings
  tree := (List.range 12).map fun i =>
    if i = 0 then ⟨none, [1], some (labelOnlyButton "Share")⟩
    else if i = 11 then
      ⟨some 10, [], some ⟨L "Microsoft.UI.Xaml.Controls.TextBlock", L "TextLabel",
        Control.textBlock (L "Share")⟩⟩
    else ⟨some (i - 1), [i + 1], some (plainElement "Microsoft.UI.Xaml.Controls.Grid")⟩
  visibility := fun _ => Visibility.Visible
  callbacks := fun _ => []
  idleQueue := []
  log := []

/-- A diagnostics service resolving every handle to the object of that index. -/
def identityDiag (handle : Nat) : HRESULT × Option Nat := (S_OK, some handle)

/-- The mutation event "a `TextBlock` named `TextLabel` was added" for a handle. -/
def textLabelEvent (handle : Nat) : VisualElement :=
  ⟨handle, some (L "Microsoft.UI.Xaml.Controls.TextBlock"), some (L "TextLabel")⟩

/-- The objects are numbered so that every child has a larger index than its
parent, which is possible exactly for trees without cycles. -/
def childrenFollowParents (w : World) : Prop :=
  ∀ p, ∀ c ∈ GetChildren w p, p < c

/-- The host collapses the element and then shows it again. -/
def showCycle (h : Nat) (w : World) : World :=
  hostSetVisibility h Visibility.Visible (hostSetVisibility h Visibility.Collapsed w)

/-- A command bar (object 0) holding a separator (1) and a freshly created,
still collapsed `AppBarButton` (2) that has neither icon nor label yet. -/
def separatorThenFreshButton : World where
  g_disabled := false
  g_settings := scenarioSettings
  tree := [
    ⟨none, [1, 2], some (plainElement "Microsoft.UI.Xaml.Controls.CommandBar")⟩,
    ⟨some 0, [], some (plainElement "Microsoft.UI.Xaml.Controls.AppBarSeparator")⟩,
    ⟨some 0, [], some (labelOnlyButton "")⟩]
  visibility := fun h => if h = 2 then Visibility.Collapsed else Visibility.Visible
  callbacks := fun _ => []
  idleQueue := []
  log := []

/-- An actor outside the program assigns the label "Share" to the button of
`separatorThenFreshButton`; nothing else of the world changes. -/
def assignShareLabel (w : World) : World :=
  { w with tree := [
      ⟨none, [1, 2], some (plainElement "Microsoft.UI.Xaml.Controls.CommandBar")⟩,
      ⟨some 0, [], some (plainElement "Microsoft.UI.Xaml.Controls.AppBarSeparator")⟩,
      ⟨some 0, [], some (labelOnlyButton "Share")⟩] }

/-- The sample button was processed while empty, shown while still empty (which
schedules the idle-queue re-check), and then got the label "Share". -/
def labelledBeforeIdleCheck : World :=
  assignShareLabel
    (hostSetVisibility 2 Visibility.Visible (ProcessAppBarButton 2 separatorThenFreshButton))

/-! # Theorems -/

/-! ## Matcher -/

theorem find_isSome_iff_infix (hay needle : wstring) :
    (find hay needle).isSome = true ↔ needle <:+: hay := by
  induction hay with
  | nil =>
    unfold find
    cases needle <;> simp [List.isPrefixOf]
  | cons a rest ih =>
    unfold find
    by_cases hp : needle.isPrefixOf (a :: rest) = true
    · simp only [hp, if_true, Option.isSome_some, true_iff]
      exact (List.isPrefixOf_iff_prefix.mp hp).isInfix
    · have hnp : ¬ needle <+: a :: rest := fun h => hp (List.isPrefixOf_iff_prefix.mpr h)
      simp only [hp, Bool.false_eq_true, if_false, Option.isSome_map', ih, List.infix_cons_iff,
        hnp, false_or]

theorem not_infix_nil_of_ne_nil (needle : wstring) (h : needle ≠ []) : ¬ needle <:+: [] := by
  intro hin
  exact h (List.infix_nil.mp hin)

theorem ShouldHideByIcon_eq_true_iff (s : Settings) (p : wstring) :
    ShouldHideByIcon s p = true ↔
      (s.hideRotateLeft = true ∧ ICON_ROTATE_LEFT <:+: p) ∨
      (s.hideRotateRight = true ∧ ICON_ROTATE_RIGHT <:+: p) ∨
      (s.hideSetAsDesktopBackground = true ∧ ICON_WALLPAPER <:+: p) := by
  unfold ShouldHideByIcon
  cases p with
  | nil =>
    have h1 := not_infix_nil_of_ne_nil ICON_ROTATE_LEFT (by decide)
    have h2 := not_infix_nil_of_ne_nil ICON_ROTATE_RIGHT (by decide)
    have h3 := not_infix_nil_of_ne_nil ICON_WALLPAPER (by decide)
    simp [h1, h2, h3]
  | cons a rest =>
    simp only [List.isEmpty_cons, Bool.false_eq_true, if_false, Bool.and_eq_true,
      find_isSome_iff_infix]
    by_cases c1 : s.hideRotateLeft = true ∧ ICON_ROTATE_LEFT <:+: a :: rest
    · simp [c1]
    · by_cases c2 : s.hideRotateRight = true ∧ ICON_ROTATE_RIGHT <:+: a :: rest
      · simp [c1, c2]
      · by_cases c3 : s.hideSetAsDesktopBackground = true ∧ ICON_WALLPAPER <:+: a :: rest
        · simp [c1, c2, c3]
        · simp [c1, c2, c3]

/-- C1: for every rule set and icon path, `ShouldHideByIcon` is true exactly
when an enabled rule's icon file name occurs in the path as a substring; the
empty path gives false, and so does every path in which each icon file name
that occurs belongs to a disabled rule (for instance a rotate-right icon when
only rotate-left is enabled). -/
theorem C1_ShouldHideByIcon_iff_enabled_substring (s : Settings) (p : wstring) :
    (ShouldHideByIcon s p = true ↔
      (s.hideRotateLeft = true ∧ L "windows.rotate270.svg" <:+: p) ∨
      (s.hideRotateRight = true ∧ L "windows.rotate90.svg" <:+: p) ∨
      (s.hideSetAsDesktopBackground = true ∧ L "windows.setdesktopwallpaper.svg" <:+: p)) ∧
    ShouldHideByIcon s [] = false ∧
    (((L "windows.rotate270.svg" <:+: p → s.hideRotateLeft = false) ∧
      (L "windows.rotate90.svg" <:+: p → s.hideRotateRight = false) ∧
      (L "windows.setdesktopwallpaper.svg" <:+: p → s.hideSetAsDesktopBackground = false)) →
      ShouldHideByIcon s p = false) ∧
    ShouldHideByIcon ⟨true, false, false, [L "Share"]⟩
      (L "ms-appx:///Files/10.0/windows.rotate90.svg") = false := by
  have key := ShouldHideByIcon_eq_true_iff s p
  refine ⟨key, rfl, ?_, by decide⟩
  rintro ⟨h1, h2, h3⟩
  rw [← Bool.not_eq_true, key]
  rintro (⟨e, i⟩ | ⟨e, i⟩ | ⟨e, i⟩)
  · rw [h1 i] at e; exact Bool.false_ne_true e
  · rw [h2 i] at e; exact Bool.false_ne_true e
  · rw [h3 i] at e; exact Bool.false_ne_true e

theorem towlower_eq_zero_iff (c : Nat) : towlower c = 0 ↔ c = 0 := by
  unfold towlower
  split <;> omega

theorem wcsicmp_eq_zero_iff (a b : wstring) :
    _wcsicmp a b = 0 ↔ equalsIgnoreCase (c_str a) (c_str b) := by
  unfold equalsIgnoreCase c_str
  induction a generalizing b with
  | nil =>
    cases b with
    | nil => simp [_wcsicmp]
    | cons y ys =>
      have hz := towlower_eq_zero_iff y
      by_cases hy : y = 0
      · simp [_wcsicmp, hy, towlower]
      · have : towlower y ≠ 0 := fun h => hy (hz.mp h)
        simp [_wcsicmp, List.takeWhile, hy]
        omega
  | cons x xs ih =>
    cases b with
    | nil =>
      have hz := towlower_eq_zero_iff x
      by_cases hx : x = 0
      · simp [_wcsicmp, hx, towlower]
      · have : towlower x ≠ 0 := fun h => hx (hz.mp h)
        simp [_wcsicmp, List.takeWhile, hx]
        omega
    | cons y ys =>
      have hzx := towlower_eq_zero_iff x
      have hzy := towlower_eq_zero_iff y
      unfold _wcsicmp
      by_cases hne : towlower x = towlower y
      · by_cases h0 : towlower x = 0
        · have hx : x = 0 := hzx.mp h0
          have hy : y = 0 := hzy.mp (hne ▸ h0)
          simp [hx, hy, towlower]
        · have hx : x ≠ 0 := fun h => h0 (hzx.mpr h)
          have hy : y ≠ 0 := fun h => h0 (hne ▸ hzy.mpr h)
          simp [hne, hne ▸ h0, List.takeWhile, hx, hy, ih]
      · by_cases hx : x = 0
        · have hy : y ≠ 0 := fun h => hne (by rw [hx, h])
          simp [hne, List.takeWhile, hx, hy]
          intro h
          apply hne
          rw [hx]
          omega
        · by_cases hy : y = 0
          · simp [hne, List.takeWhile, hx, hy]
            intro h
            apply hne
            rw [hy]
            omega
          · simp [hne, List.takeWhile, hx, hy]
            intro h
            omega

theorem c_str_eq_self (s : wstring) (h : 0 ∉ s) : c_str s = s := by
  unfold c_str
  rw [List.takeWhile_eq_self_iff]
  intro x hx
  simp only [ne_eq, decide_not, Bool.not_eq_true', decide_eq_false_iff_not]
  rintro rfl
  exact h hx

theorem ShouldHideByLabel_eq_true_iff (s : Settings) (l : wstring) :
    ShouldHideByLabel s l = true ↔
      l ≠ [] ∧ ∃ c ∈ s.customLabels, equalsIgnoreCase (c_str l) (c_str c) := by
  unfold ShouldHideByLabel
  cases l with
  | nil => simp
  | cons a rest =>
    simp only [List.isEmpty_cons, Bool.false_eq_true, if_false, List.any_eq_true, beq_iff_eq,
      wcsicmp_eq_zero_iff, ne_eq, reduceCtorEq, not_false_eq_true, true_and]

/-- C2 (amended): `ShouldHideByLabel` is true exactly when the label is
non-empty and some custom label equals it under case-insensitive comparison
of the two strings read as NUL-terminated strings (each up to its first NUL
code unit).  When neither the label nor any custom label contains a NUL code
unit this is case-insensitive equality of the whole strings.  The label
"Rotate" does not match the rule "rotate left"; the label "share" matches the
rule "Share". -/
theorem C2_ShouldHideByLabel_iff_c_str_equal (s : Settings) (l : wstring) :
    (ShouldHideByLabel s l = true ↔
      l ≠ [] ∧ ∃ c ∈ s.customLabels, equalsIgnoreCase (c_str l) (c_str c)) ∧
    ((0 ∉ l ∧ ∀ c ∈ s.customLabels, 0 ∉ c) →
      (ShouldHideByLabel s l = true ↔
        l ≠ [] ∧ ∃ c ∈ s.customLabels, equalsIgnoreCase l c)) ∧
    ShouldHideByLabel ⟨true, true, true, [L "rotate left"]⟩ (L "Rotate") = false ∧
    ShouldHideByLabel ⟨true, false, false, [L "Share"]⟩ (L "share") = true := by
  refine ⟨ShouldHideByLabel_eq_true_iff s l, ?_, by decide, by decide⟩
  rintro ⟨hl, hc⟩
  rw [ShouldHideByLabel_eq_true_iff, c_str_eq_self l hl]
  constructor
  · rintro ⟨hne, c, hmem, heq⟩
    exact ⟨hne, c, hmem, by rwa [c_str_eq_self c (hc c hmem)] at heq⟩
  · rintro ⟨hne, c, hmem, heq⟩
    exact ⟨hne, c, hmem, by rwa [c_str_eq_self c (hc c hmem)]⟩

/-- C2 as stated fails: with the single rule "Share", the seven-unit label
`Share`, NUL, `d` is hidden although it equals no custom label as a whole
string. -/
theorem C2_counterexample_embedded_nul :
    ¬ (ShouldHideByLabel ⟨true, false, false, [L "Share"]⟩ (L "Share" ++ 0 :: L "d") = true ↔
        (L "Share" ++ 0 :: L "d") ≠ [] ∧
          ∃ c ∈ [L "Share"], equalsIgnoreCase (L "Share" ++ 0 :: L "d") c) := by
  decide

/-! ## Separator suppression -/

theorem findButtonIndex_eq_some (w : World) (cs : List Nat) (hb k : Nat)
    (hk : cs[k]? = some hb) (hfe : (w.try_as_FrameworkElement hb).isSome = true) :
    ∀ n i, i ≤ k → k < i + n → (∀ j, i ≤ j → j < k → cs[j]? ≠ some hb) →
      findButtonIndex w cs hb n i = some k := by
  intro n
  induction n with
  | zero => intro i h1 h2; omega
  | succ n ih =>
    intro i h1 h2 hfirst
    unfold findButtonIndex
    by_cases hik : i = k
    · subst hik
      simp [hk, hfe]
    · have hlt : i < k := by omega
      have hne := hfirst i (le_refl i) hlt
      have hrec := ih (i + 1) (by omega) (by omega)
        (fun j hj1 hj2 => hfirst j (by omega) hj2)
      cases hci : cs[i]? with
      | none => simpa using hrec
      | some c =>
        have hc : c ≠ hb := by
          rintro rfl
          exact hne hci
        simp [hc, hrec]

theorem findButtonIndex_eq_none (w : World) (cs : List Nat) (hb : Nat)
    (hno : ∀ k, ¬ locatedAt w cs hb k) :
    ∀ n i, findButtonIndex w cs hb n i = none := by
  have hall : ∀ k : Nat, ¬ (cs[k]? = some hb ∧ (w.try_as_FrameworkElement hb).isSome = true) := by
    intro k
    induction k using Nat.strong_induction_on with
    | _ k ih =>
      rintro ⟨h1, h2⟩
      exact hno k ⟨h1, h2, fun j hj hjk => ih j hj ⟨hjk, h2⟩⟩
  intro n
  induction n with
  | zero => intro i; rfl
  | succ n ih =>
    intro i
    unfold findButtonIndex
    cases hci : cs[i]? with
    | none => simpa using ih (i + 1)
    | some c =>
      have hnot : ¬ ((w.try_as_FrameworkElement c).isSome = true ∧ c = hb) := by
        rintro ⟨h2, rfl⟩
        exact hall i ⟨hci, h2⟩
      simp only [hnot, if_false]
      exact ih (i + 1)

theorem collapseSeparatorBefore_eq (w : World) (cs : List Nat) (k : Nat) :
    collapseSeparatorBefore w cs k = suppressPrecedingSeparator w cs k := by
  induction k with
  | zero => simp [collapseSeparatorBefore, suppressPrecedingSeparator, firstVisibleBefore]
  | succ k ih =>
    unfold collapseSeparatorBefore
    cases hck : cs[k]? with
    | none =>
      simp only [ih]
      simp [suppressPrecedingSeparator, firstVisibleBefore, List.take_succ, hck]
    | some c =>
      cases hfe : w.try_as_FrameworkElement c with
      | none =>
        simp only [ih]
        simp [suppressPrecedingSeparator, firstVisibleBefore, List.take_succ, hck,
          isVisibleElement, hfe]
      | some fe =>
        by_cases hv : w.visibility c = Visibility.Visible
        · simp [suppressPrecedingSeparator, firstVisibleBefore, List.take_succ, hck,
            isVisibleElement, hfe, hv, isSeparator, find_isSome_iff_infix]
        · simp only [ne_eq, hv, not_false_eq_true, if_true, ih]
          simp [suppressPrecedingSeparator, firstVisibleBefore, List.take_succ, hck,
            isVisibleElement, hfe, hv]

theorem HideAdjacentSeparator_located (w : World) (hb parent k : Nat)
    (hp : GetParent w hb = some parent) (hk : locatedAt w (GetChildren w parent) hb k) :
    HideAdjacentSeparator hb w = suppressPrecedingSeparator w (GetChildren w parent) k := by
  obtain ⟨h1, h2, h3⟩ := hk
  have hlt : k < (GetChildren w parent).length := by
    rcases Nat.lt_or_ge k (GetChildren w parent).length with h | h
    · exact h
    · have hnone : (GetChildren w parent)[k]? = none := List.getElem?_eq_none h
      rw [hnone] at h1
      exact absurd h1 (by simp)
  have hidx := findButtonIndex_eq_some w (GetChildren w parent) hb k h1 h2
    (GetChildren w parent).length 0 (Nat.zero_le k) (by omega) (fun j _ hj => h3 j hj)
  simp only [HideAdjacentSeparator, hp, hidx, collapseSeparatorBefore_eq]

theorem HideAdjacentSeparator_not_found (w : World) (hb : Nat)
    (h : GetParent w hb = none ∨
      ∃ parent, GetParent w hb = some parent ∧ ∀ k, ¬ locatedAt w (GetChildren w parent) hb k) :
    HideAdjacentSeparator hb w = w := by
  rcases h with h | ⟨parent, hp, hno⟩
  · simp [HideAdjacentSeparator, h]
  · simp [HideAdjacentSeparator, hp, findButtonIndex_eq_none w _ hb hno]

theorem exists_locatedAt_or_not (w : World) (cs : List Nat) (hb : Nat) :
    (∃ k, locatedAt w cs hb k) ∨ ∀ k, ¬ locatedAt w cs hb k := by
  by_cases h : ∃ k, locatedAt w cs hb k
  · exact Or.inl h
  · exact Or.inr (fun k hk => h ⟨k, hk⟩)

theorem firstVisibleBefore_ne (w : World) (cs : List Nat) (hb k s : Nat)
    (hk : locatedAt w cs hb k) (hs : firstVisibleBefore w cs k = some s) : s ≠ hb := by
  rintro rfl
  have hmem : s ∈ (cs.take k).reverse := List.mem_of_find?_eq_some hs
  rw [List.mem_reverse, List.mem_take_iff_getElem] at hmem
  obtain ⟨j, hj, hjs⟩ := hmem
  have hjk : j < k := (lt_min_iff.mp hj).1
  have hjl : j < cs.length := (lt_min_iff.mp hj).2
  exact hk.2.2 j hjk (by rw [List.getElem?_eq_getElem hjl, hjs])

/-- Separator suppression returns the world unchanged or collapses exactly
one object, which is not the hidden element and was a visible separator. -/
theorem HideAdjacentSeparator_cases (hb : Nat) (w : World) :
    HideAdjacentSeparator hb w = w ∨
      ∃ s, s ≠ hb ∧ isVisibleElement w s = true ∧ isSeparator w s = true ∧
        HideAdjacentSeparator hb w = w.setVisibility s Visibility.Collapsed := by
  cases hp : GetParent w hb with
  | none => exact Or.inl (HideAdjacentSeparator_not_found w hb (Or.inl hp))
  | some parent =>
    rcases exists_locatedAt_or_not w (GetChildren w parent) hb with ⟨k, hk⟩ | hno
    · rw [HideAdjacentSeparator_located w hb parent k hp hk]
      unfold suppressPrecedingSeparator
      cases hf : firstVisibleBefore w (GetChildren w parent) k with
      | none => exact Or.inl rfl
      | some s =>
        by_cases hsep : isSeparator w s = true
        · refine Or.inr ⟨s, firstVisibleBefore_ne w _ hb k s hk hf, ?_, hsep, by simp [hsep]⟩
          exact List.find?_some hf
        · exact Or.inl (by simp [hsep])
    · exact Or.inl (HideAdjacentSeparator_not_found w hb (Or.inr ⟨parent, hp, hno⟩))

/-- C3: `HideAdjacentSeparator` changes the visibility of at most one object.
When the hidden element is located at index `k` among its parent's children,
the scan goes backward from index `k - 1`, skips siblings that are not visible,
and collapses the first visible sibling exactly when its class name contains
"AppBarSeparator"; when that sibling is not a separator or there is no visible
preceding sibling nothing changes.  When the element has no parent or is not
found among its parent's children nothing changes.  Nothing but visibility is
ever written. -/
theorem C3_HideAdjacentSeparator_at_most_one_sibling (w : World) (hiddenButton : Nat) :
    (∀ parent k, GetParent w hiddenButton = some parent →
      locatedAt w (GetChildren w parent) hiddenButton k →
      HideAdjacentSeparator hiddenButton w =
        match firstVisibleBefore w (GetChildren w parent) k with
        | some s => if isSeparator w s then w.setVisibility s Visibility.Collapsed else w
        | none => w) ∧
    ((GetParent w hiddenButton = none ∨
      ∃ parent, GetParent w hiddenButton = some parent ∧
        ∀ k, ¬ locatedAt w (GetChildren w parent) hiddenButton k) →
      HideAdjacentSeparator hiddenButton w = w) ∧
    (∃ s, s ≠ hiddenButton ∧
      (∀ i, i ≠ s →
        (HideAdjacentSeparator hiddenButton w).visibility i = w.visibility i) ∧
      ((HideAdjacentSeparator hiddenButton w).visibility s = w.visibility s ∨
        (w.visibility s = Visibility.Visible ∧
          (HideAdjacentSeparator hiddenButton w).visibility s = Visibility.Collapsed))) ∧
    ((HideAdjacentSeparator hiddenButton w).tree = w.tree ∧
      (HideAdjacentSeparator hiddenButton w).callbacks = w.callbacks ∧
      (HideAdjacentSeparator hiddenButton w).idleQueue = w.idleQueue ∧
      (HideAdjacentSeparator hiddenButton w).log = w.log) := by
  refine ⟨fun parent k hp hk => HideAdjacentSeparator_located w hiddenButton parent k hp hk,
    HideAdjacentSeparator_not_found w hiddenButton, ?_, ?_⟩
  · rcases HideAdjacentSeparator_cases hiddenButton w with h | ⟨s, hne, hvis, _, h⟩
    · exact ⟨hiddenButton + 1, by omega, fun i _ => by rw [h], Or.inl (by rw [h])⟩
    · refine ⟨s, hne, fun i hi => ?_, Or.inr ⟨?_, ?_⟩⟩
      · rw [h]
        simp [World.setVisibility, Function.update_noteq hi]
      · simp only [isVisibleElement, Bool.and_eq_true, decide_eq_true_eq] at hvis
        exact hvis.2
      · rw [h]
        simp [World.setVisibility]
  · rcases HideAdjacentSeparator_cases hiddenButton w with h | ⟨s, _, _, _, h⟩
    · rw [h]
      exact ⟨rfl, rfl, rfl, rfl⟩
    · rw [h]
      exact ⟨rfl, rfl, rfl, rfl⟩

/-- C3 on the sample command bar: hiding the button at index 3 collapses the
separator right before it and nothing else; a visible non-separator before the
hidden element blocks the scan. -/
theorem C3_example_commandBar :
    locatedAt commandBar (GetChildren commandBar 0) 4 3 ∧
    firstVisibleBefore commandBar (GetChildren commandBar 0) 3 = some 3 ∧
    HideAdjacentSeparator 4 commandBar = commandBar.setVisibility 3 Visibility.Collapsed ∧
    firstVisibleBefore (commandBar.setVisibility 2 Visibility.Visible)
      (GetChildren commandBar 0) 2 = some 2 ∧
    HideAdjacentSeparator 3 (commandBar.setVisibility 2 Visibility.Visible) =
      commandBar.setVisibility 2 Visibility.Visible := by
  have h1 : locatedAt commandBar (GetChildren commandBar 0) 4 3 := by decide
  have h2 : firstVisibleBefore commandBar (GetChildren commandBar 0) 3 = some 3 := by decide
  have h3 : locatedAt (commandBar.setVisibility 2 Visibility.Visible)
      (GetChildren (commandBar.setVisibility 2 Visibility.Visible) 0) 3 2 := by decide
  have h4 : firstVisibleBefore (commandBar.setVisibility 2 Visibility.Visible)
      (GetChildren (commandBar.setVisibility 2 Visibility.Visible) 0) 2 = some 2 := by decide
  refine ⟨h1, h2, ?_, h4, ?_⟩
  · have h := (C3_HideAdjacentSeparator_at_most_one_sibling commandBar 4).1 0 3 (by decide) h1
    rw [h, h2]
    rfl
  · have h := (C3_HideAdjacentSeparator_at_most_one_sibling
      (commandBar.setVisibility 2 Visibility.Visible) 3).1 0 2 (by decide) h3
    rw [h, h4]
    rfl

/-! ## What the signals and the separator scan depend on -/

theorem try_as_congr {w₁ w₂ : World} (ht : w₁.tree = w₂.tree) :
    w₁.try_as_FrameworkElement = w₂.try_as_FrameworkElement := by
  funext h
  simp [World.try_as_FrameworkElement, ht]

theorem GetChildren_congr {w₁ w₂ : World} (ht : w₁.tree = w₂.tree) :
    GetChildren w₁ = GetChildren w₂ := by
  funext h
  simp [GetChildren, ht]

theorem GetParent_congr {w₁ w₂ : World} (ht : w₁.tree = w₂.tree) :
    GetParent w₁ = GetParent w₂ := by
  funext h
  simp [GetParent, ht]

theorem GetButtonSvgUri_congr {w₁ w₂ : World} (ht : w₁.tree = w₂.tree) (h : Nat) :
    GetButtonSvgUri w₁ h = GetButtonSvgUri w₂ h := by
  simp only [GetButtonSvgUri, try_as_congr ht]

theorem FindChildByName_congr {w₁ w₂ : World} (ht : w₁.tree = w₂.tree) (name : wstring) :
    ∀ depth parent, FindChildByName w₁ name depth parent = FindChildByName w₂ name depth parent := by
  intro depth
  induction depth with
  | zero => intro parent; rfl
  | succ d ih =>
    intro parent
    simp only [FindChildByName, GetChildren_congr ht, try_as_congr ht, ih]

theorem GetAppBarButtonLabelText_congr {w₁ w₂ : World} (ht : w₁.tree = w₂.tree) (h : Nat) :
    GetAppBarButtonLabelText w₁ h = GetAppBarButtonLabelText w₂ h := by
  simp only [GetAppBarButtonLabelText, FindChildByName_congr ht, try_as_congr ht, ht]

theorem signalsMatch_congr {w₁ w₂ : World} (ht : w₁.tree = w₂.tree)
    (hs : w₁.g_settings = w₂.g_settings) (h : Nat) :
    signalsMatch w₁ h = signalsMatch w₂ h := by
  simp only [signalsMatch, GetButtonSvgUri_congr ht, GetAppBarButtonLabelText_congr ht, hs]

theorem findButtonIndex_congr {w₁ w₂ : World} (ht : w₁.tree = w₂.tree) (cs : List Nat)
    (hb : Nat) : ∀ n i, findButtonIndex w₁ cs hb n i = findButtonIndex w₂ cs hb n i := by
  intro n
  induction n with
  | zero => intro i; rfl
  | succ n ih =>
    intro i
    simp only [findButtonIndex, try_as_congr ht, ih]

theorem suppressPrecedingSeparator_visibility_congr {w₁ w₂ : World} (ht : w₁.tree = w₂.tree)
    (hv : w₁.visibility = w₂.visibility) (cs : List Nat) (k : Nat) :
    (suppressPrecedingSeparator w₁ cs k).visibility =
      (suppressPrecedingSeparator w₂ cs k).visibility := by
  have h1 : isVisibleElement w₁ = isVisibleElement w₂ := by
    funext c
    simp [isVisibleElement, try_as_congr ht, hv]
  have h2 : isSeparator w₁ = isSeparator w₂ := by
    funext c
    simp [isSeparator, try_as_congr ht]
  simp only [suppressPrecedingSeparator, firstVisibleBefore, h1, h2]
  cases (List.take k cs).reverse.find? (isVisibleElement w₂) with
  | none => exact hv
  | some s =>
    by_cases hsep : isSeparator w₂ s = true
    · simp [hsep, World.setVisibility, hv]
    · simp [hsep, hv]

/-- The visibilities after separator suppression depend only on the tree and
the visibilities before it. -/
theorem HideAdjacentSeparator_visibility_congr {w₁ w₂ : World} (ht : w₁.tree = w₂.tree)
    (hv : w₁.visibility = w₂.visibility) (hb : Nat) :
    (HideAdjacentSeparator hb w₁).visibility = (HideAdjacentSeparator hb w₂).visibility := by
  simp only [HideAdjacentSeparator, GetParent_congr ht, GetChildren_congr ht,
    findButtonIndex_congr ht, collapseSeparatorBefore_eq]
  cases GetParent w₂ hb with
  | none => exact hv
  | some parent =>
    simp only
    cases findButtonIndex w₂ (GetChildren w₂ parent) hb (GetChildren w₂ parent).length 0 with
    | none => exact hv
    | some k => exact suppressPrecedingSeparator_visibility_congr ht hv _ k

/-- Separator suppression writes visibilities only, and never the hidden
element's own. -/
theorem HideAdjacentSeparator_frame (hb : Nat) (w : World) :
    (HideAdjacentSeparator hb w).tree = w.tree ∧
    (HideAdjacentSeparator hb w).g_disabled = w.g_disabled ∧
    (HideAdjacentSeparator hb w).g_settings = w.g_settings ∧
    (HideAdjacentSeparator hb w).callbacks = w.callbacks ∧
    (HideAdjacentSeparator hb w).idleQueue = w.idleQueue ∧
    (HideAdjacentSeparator hb w).log = w.log ∧
    (HideAdjacentSeparator hb w).visibility hb = w.visibility hb := by
  rcases HideAdjacentSeparator_cases hb w with h | ⟨s, hne, _, _, h⟩
  · rw [h]
    exact ⟨rfl, rfl, rfl, rfl, rfl, rfl, rfl⟩
  · rw [h]
    refine ⟨rfl, rfl, rfl, rfl, rfl, rfl, ?_⟩
    simp [World.setVisibility, Function.update_noteq (Ne.symm hne)]

/-! ## The depth bound of the descendant search -/

theorem findSome?_congr_mem {α β : Type} (l : List α) (f g : α → Option β)
    (h : ∀ x ∈ l, f x = g x) : l.findSome? f = l.findSome? g := by
  induction l with
  | nil => rfl
  | cons a rest ih =>
    simp only [List.findSome?_cons, h a (List.mem_cons_self a rest)]
    rw [ih (fun x hx => h x (List.mem_cons_of_mem a hx))]

/-- On a tree without cycles the bound `w.tree.length` used by
`GetAppBarButtonLabelText` is never reached: any larger bound gives the same
answer, so the search is the unbounded recursion of the source. -/
theorem FindChildByName_bound_stable (w : World) (name : wstring)
    (hw : childrenFollowParents w) :
    ∀ depth parent, w.tree.length ≤ depth + parent →
      FindChildByName w name (depth + 1) parent = FindChildByName w name depth parent := by
  intro depth
  induction depth with
  | zero =>
    intro parent hlen
    have hnone : w.tree[parent]? = none := List.getElem?_eq_none (by omega)
    simp [FindChildByName, GetChildren, hnone]
  | succ d ih =>
    intro parent hlen
    rw [FindChildByName, FindChildByName]
    refine findSome?_congr_mem _ _ _ (fun child hchild => ?_)
    have hlt := hw parent child hchild
    rw [ih child (by omega)]

/-! ## The visibility watches -/

theorem ReHideCallback_collapsed (h : Nat) (w : World)
    (hc : w.visibility h = Visibility.Collapsed) : ReHideCallback h w = w := by
  unfold ReHideCallback
  split
  · rfl
  · split
    · rfl
    · simp [hc]

theorem deferredCheck_collapsed (h : Nat) (w : World)
    (hc : w.visibility h = Visibility.Collapsed) : deferredCheck h w = w := by
  unfold deferredCheck
  split
  · rfl
  · split
    · rfl
    · simp [hc]

/-- A change notification for a collapsed sender runs no code past the
callbacks' guards. -/
theorem notify_collapsed (h : Nat) (cbs : List Callback) :
    ∀ w : World, w.visibility h = Visibility.Collapsed → cbs.foldl (runCallback h) w = w := by
  induction cbs with
  | nil => intro w _; rfl
  | cons cb rest ih =>
    intro w hc
    have hstep : runCallback h w cb = w := by
      cases cb
      · exact ReHideCallback_collapsed h w hc
      · exact deferredCheck_collapsed h w hc
    simp only [List.foldl_cons, hstep]
    exact ih w hc

theorem runCallback_match (h : Nat) (w : World) (cb : Callback)
    (hen : w.g_disabled = false) (hfe : (w.try_as_FrameworkElement h).isSome = true)
    (hv : w.visibility h = Visibility.Visible) (hm : signalsMatch w h = true) :
    (runCallback h w cb).tree = w.tree ∧
    (runCallback h w cb).g_disabled = w.g_disabled ∧
    (runCallback h w cb).g_settings = w.g_settings ∧
    (runCallback h w cb).visibility =
      (HideAdjacentSeparator h (w.setVisibility h Visibility.Collapsed)).visibility := by
  obtain ⟨fe, hfe⟩ := Option.isSome_iff_exists.mp hfe
  unfold signalsMatch at hm
  cases cb with
  | ReHideCallback =>
    have e : runCallback h w Callback.ReHideCallback =
        HideAdjacentSeparator h
          ((w.Wh_Log "Re-hiding: %s" (GetAppBarButtonLabelText w h)).setVisibility h
            Visibility.Collapsed) := by
      simp [runCallback, ReHideCallback, hen, hfe, hv, hm]
    rw [e]
    obtain ⟨f1, f2, f3, _, _, _, _⟩ := HideAdjacentSeparator_frame h
      ((w.Wh_Log "Re-hiding: %s" (GetAppBarButtonLabelText w h)).setVisibility h
        Visibility.Collapsed)
    exact ⟨f1, f2, f3,
      HideAdjacentSeparator_visibility_congr (by rfl) (by rfl) h⟩
  | deferredCheck =>
    have e : runCallback h w Callback.deferredCheck =
        (HideAdjacentSeparator h
          ((w.Wh_Log "Deferred hiding: %s"
            (if (GetAppBarButtonLabelText w h).isEmpty then GetButtonSvgUri w h
              else GetAppBarButtonLabelText w h)).setVisibility h
            Visibility.Collapsed)).RegisterPropertyChangedCallback h Callback.ReHideCallback := by
      simp [runCallback, deferredCheck, hen, hfe, hv, hm]
    rw [e]
    obtain ⟨f1, f2, f3, _, _, _, _⟩ := HideAdjacentSeparator_frame h
      ((w.Wh_Log "Deferred hiding: %s"
        (if (GetAppBarButtonLabelText w h).isEmpty then GetButtonSvgUri w h
          else GetAppBarButtonLabelText w h)).setVisibility h Visibility.Collapsed)
    exact ⟨f1, f2, f3,
      HideAdjacentSeparator_visibility_congr (by rfl) (by rfl) h⟩

theorem runCallback_no_match (h : Nat) (w : World) (cb : Callback)
    (hm : signalsMatch w h = false) :
    (runCallback h w cb).tree = w.tree ∧
    (runCallback h w cb).g_disabled = w.g_disabled ∧
    (runCallback h w cb).g_settings = w.g_settings ∧
    (runCallback h w cb).visibility = w.visibility := by
  unfold signalsMatch at hm
  cases cb with
  | ReHideCallback =>
    simp only [runCallback, ReHideCallback, hm]
    split
    · exact ⟨rfl, rfl, rfl, rfl⟩
    · split
      · exact ⟨rfl, rfl, rfl, rfl⟩
      · split <;> exact ⟨rfl, rfl, rfl, rfl⟩
  | deferredCheck =>
    simp only [runCallback, deferredCheck, hm]
    split
    · exact ⟨rfl, rfl, rfl, rfl⟩
    · split
      · exact ⟨rfl, rfl, rfl, rfl⟩
      · split
        · exact ⟨rfl, rfl, rfl, rfl⟩
        · simp only [Bool.false_eq_true, if_false]
          split <;> exact ⟨rfl, rfl, rfl, rfl⟩

theorem notify_no_match (h : Nat) (w0 : World) (hm : signalsMatch w0 h = false)
    (cbs : List Callback) :
    ∀ w : World, w.tree = w0.tree → w.g_settings = w0.g_settings →
      (cbs.foldl (runCallback h) w).tree = w0.tree ∧
      (cbs.foldl (runCallback h) w).g_settings = w0.g_settings ∧
      (cbs.foldl (runCallback h) w).g_disabled = w.g_disabled ∧
      (cbs.foldl (runCallback h) w).visibility = w.visibility := by
  induction cbs with
  | nil => intro w ht hs; exact ⟨ht, hs, rfl, rfl⟩
  | cons cb rest ih =>
    intro w ht hs
    have hm' : signalsMatch w h = false := by rw [signalsMatch_congr ht hs h]; exact hm
    obtain ⟨s1, s2, s3, s4⟩ := runCallback_no_match h w cb hm'
    obtain ⟨r1, r2, r3, r4⟩ := ih (runCallback h w cb) (s1.trans ht) (s3.trans hs)
    simp only [List.foldl_cons]
    exact ⟨r1, r2, r3.trans s2, r4.trans s4⟩

theorem notify_match (h : Nat) (w : World) (cbs : List Callback) (hne : cbs ≠ [])
    (hen : w.g_disabled = false) (hfe : (w.try_as_FrameworkElement h).isSome = true)
    (hv : w.visibility h = Visibility.Visible) (hm : signalsMatch w h = true) :
    (cbs.foldl (runCallback h) w).tree = w.tree ∧
    (cbs.foldl (runCallback h) w).visibility =
      (HideAdjacentSeparator h (w.setVisibility h Visibility.Collapsed)).visibility := by
  cases cbs with
  | nil => exact absurd rfl hne
  | cons cb rest =>
    obtain ⟨s1, _, _, s4⟩ := runCallback_match h w cb hen hfe hv hm
    have hcol : (runCallback h w cb).visibility h = Visibility.Collapsed := by
      rw [s4, (HideAdjacentSeparator_frame h _).2.2.2.2.2.2]
      simp [World.setVisibility]
    simp only [List.foldl_cons, notify_collapsed h rest _ hcol]
    exact ⟨s1, s4⟩

theorem update_update_self (v : Nat → Visibility) (h : Nat) (a : Visibility) :
    Function.update (Function.update v h a) h (v h) = v := by
  simp

theorem HideButton_registers (h : Nat) (reason : wstring) (w : World) :
    Callback.ReHideCallback ∈ (HideButton h reason w).callbacks h ∧
    (HideButton h reason w).visibility h = Visibility.Collapsed := by
  obtain ⟨_, _, _, f4, _, _, f7⟩ := HideAdjacentSeparator_frame h
    ((w.Wh_Log "Hiding button: %s" reason).setVisibility h Visibility.Collapsed)
  constructor
  · simp [HideButton, World.RegisterPropertyChangedCallback]
  · show (HideAdjacentSeparator h _).visibility h = Visibility.Collapsed
    rw [f7]
    simp [World.setVisibility]

/-- C4: let an element be collapsed and carry the `ReHideCallback` watch, as
`HideButton` leaves it (or the deferred watch, which re-hides in the same way),
with the feature not disabled.  When the host sets its visibility back to
`Visible`, the watch computes the icon path and label afresh; if they match the
current rule set the element ends collapsed again and the visibilities are
those separator suppression produces, and if they do not match the element
stays `Visible` and no visibility besides its own has changed.  The watch
`ReHideCallback` itself is: log, collapse, `HideAdjacentSeparator` on a match,
nothing otherwise. -/
theorem C4_reshow_triggers_rehide (w : World) (h : Nat)
    (hen : w.g_disabled = false)
    (hfe : (w.try_as_FrameworkElement h).isSome = true)
    (hreg : Callback.ReHideCallback ∈ w.callbacks h ∨ Callback.deferredCheck ∈ w.callbacks h)
    (hcol : w.visibility h = Visibility.Collapsed) :
    (signalsMatch w h = true →
      (hostSetVisibility h Visibility.Visible w).visibility h = Visibility.Collapsed ∧
      (hostSetVisibility h Visibility.Visible w).visibility =
        (HideAdjacentSeparator h w).visibility) ∧
    (signalsMatch w h = false →
      (hostSetVisibility h Visibility.Visible w).visibility h = Visibility.Visible ∧
      (hostSetVisibility h Visibility.Visible w).visibility =
        Function.update w.visibility h Visibility.Visible) ∧
    ReHideCallback h (w.setVisibility h Visibility.Visible) =
      (if signalsMatch w h then
        HideAdjacentSeparator h
          (((w.setVisibility h Visibility.Visible).Wh_Log "Re-hiding: %s"
            (GetAppBarButtonLabelText w h)).setVisibility h Visibility.Collapsed)
       else w.setVisibility h Visibility.Visible) ∧
    (∀ (w0 : World) (reason : wstring),
      Callback.ReHideCallback ∈ (HideButton h reason w0).callbacks h ∧
      (HideButton h reason w0).visibility h = Visibility.Collapsed) := by
  have hne : w.visibility h ≠ Visibility.Visible := by rw [hcol]; decide
  have hhost : hostSetVisibility h Visibility.Visible w =
      (w.callbacks h).foldl (runCallback h) (w.setVisibility h Visibility.Visible) := by
    simp [hostSetVisibility, hne, notifyVisibilityChanged, World.setVisibility]
  have hcbs : w.callbacks h ≠ [] := hreg.elim List.ne_nil_of_mem List.ne_nil_of_mem
  have hv1 : (w.setVisibility h Visibility.Visible).visibility h = Visibility.Visible := by
    simp [World.setVisibility]
  have hsm : signalsMatch (w.setVisibility h Visibility.Visible) h = signalsMatch w h :=
    signalsMatch_congr (by rfl) (by rfl) h
  refine ⟨fun hm => ?_, fun hm => ?_, ?_, fun w0 reason => HideButton_registers h reason w0⟩
  · obtain ⟨_, r2⟩ := notify_match h (w.setVisibility h Visibility.Visible) (w.callbacks h)
      hcbs hen hfe hv1 (hsm.trans hm)
    have hback : ((w.setVisibility h Visibility.Visible).setVisibility h
        Visibility.Collapsed).visibility = w.visibility := by
      simp only [World.setVisibility]
      rw [← hcol]
      exact update_update_self w.visibility h Visibility.Visible
    have hvis : (hostSetVisibility h Visibility.Visible w).visibility =
        (HideAdjacentSeparator h w).visibility := by
      rw [hhost, r2]
      exact HideAdjacentSeparator_visibility_congr (by rfl) hback h
    refine ⟨?_, hvis⟩
    rw [hvis, (HideAdjacentSeparator_frame h w).2.2.2.2.2.2, hcol]
  · obtain ⟨_, _, _, r4⟩ := notify_no_match h (w.setVisibility h Visibility.Visible)
      (hsm.trans hm) (w.callbacks h) (w.setVisibility h Visibility.Visible) rfl rfl
    rw [hhost, r4]
    exact ⟨hv1, rfl⟩
  · obtain ⟨fe, hfe'⟩ := Option.isSome_iff_exists.mp hfe
    have hfe1 : (w.setVisibility h Visibility.Visible).try_as_FrameworkElement h = some fe := hfe'
    have hen1 : (w.setVisibility h Visibility.Visible).g_disabled = false := hen
    have hl : GetAppBarButtonLabelText (w.setVisibility h Visibility.Visible) h =
        GetAppBarButtonLabelText w h := GetAppBarButtonLabelText_congr (by rfl) h
    have hu : GetButtonSvgUri (w.setVisibility h Visibility.Visible) h =
        GetButtonSvgUri w h := GetButtonSvgUri_congr (by rfl) h
    have hs1 : (w.setVisibility h Visibility.Visible).g_settings = w.g_settings := rfl
    simp only [ReHideCallback, hen1, hfe1, hv1, hl, hu, hs1, signalsMatch, Bool.false_eq_true,
      if_false, reduceCtorEq]

/-- C4 on the sample command bar: after `HideButton` hid the "Share" button,
showing it again leaves it collapsed. -/
theorem C4_witness_commandBar :
    (hostSetVisibility 4 Visibility.Visible hiddenShare).visibility 4 = Visibility.Collapsed :=
  ((C4_reshow_triggers_rehide hiddenShare 4 (by decide) (by decide) (Or.inl (by decide))
    (by decide)).1 (by decide)).1

/-! ## Deferred resolution -/

theorem ProcessAppBarButton_both_empty (w : World) (h : Nat)
    (hfe : (w.try_as_FrameworkElement h).isSome = true)
    (huri : GetButtonSvgUri w h = []) (hlab : GetAppBarButtonLabelText w h = []) :
    ProcessAppBarButton h w = w.RegisterPropertyChangedCallback h Callback.deferredCheck := by
  obtain ⟨fe, hfe'⟩ := Option.isSome_iff_exists.mp hfe
  simp [ProcessAppBarButton, hfe', huri, hlab, ShouldHideByIcon]

theorem layoutDeferredCheck_match (h : Nat) (w : World) (hen : w.g_disabled = false)
    (hm : signalsMatch w h = true) :
    (layoutDeferredCheck h w).visibility h = Visibility.Collapsed ∧
    (layoutDeferredCheck h w).idleQueue = w.idleQueue := by
  unfold signalsMatch at hm
  simp only [layoutDeferredCheck, hen, hm, Bool.false_eq_true, if_false, if_true]
  obtain ⟨_, _, _, _, f5, _, f7⟩ := HideAdjacentSeparator_frame h
    ((w.Wh_Log "Layout-deferred hide: %s"
      (if (GetAppBarButtonLabelText w h).isEmpty then GetButtonSvgUri w h
        else GetAppBarButtonLabelText w h)).setVisibility h Visibility.Collapsed)
  refine ⟨?_, f5⟩
  rw [f7]
  simp [World.setVisibility]

theorem signalsMatch_empty (w : World) (h : Nat)
    (huri : GetButtonSvgUri w h = []) (hlab : GetAppBarButtonLabelText w h = []) :
    signalsMatch w h = false := by
  simp [signalsMatch, huri, hlab, ShouldHideByIcon, ShouldHideByLabel]

theorem ReHideCallback_no_match (h : Nat) (w : World) (hm : signalsMatch w h = false) :
    ReHideCallback h w = w := by
  unfold signalsMatch at hm
  simp only [ReHideCallback, hm]
  split
  · rfl
  · split
    · rfl
    · split <;> rfl

theorem deferredCheck_empty_visible (h : Nat) (w : World)
    (hen : w.g_disabled = false) (hfe : (w.try_as_FrameworkElement h).isSome = true)
    (hv : w.visibility h = Visibility.Visible)
    (huri : GetButtonSvgUri w h = []) (hlab : GetAppBarButtonLabelText w h = []) :
    deferredCheck h w = w.TryEnqueue h := by
  obtain ⟨fe, hfe'⟩ := Option.isSome_iff_exists.mp hfe
  simp [deferredCheck, hen, hfe', hv, huri, hlab, ShouldHideByIcon, ShouldHideByLabel]

theorem layoutDeferredCheck_empty (h : Nat) (w : World)
    (huri : GetButtonSvgUri w h = []) (hlab : GetAppBarButtonLabelText w h = []) :
    layoutDeferredCheck h w = w := by
  simp [layoutDeferredCheck, huri, hlab, ShouldHideByIcon, ShouldHideByLabel]

/-- The notification of a shown element whose signals are empty: every
registered `ReHideCallback` does nothing and every registered deferred watch
enqueues one idle-queue re-check. -/
theorem notify_empty (h : Nat) (cbs : List Callback) :
    ∀ w : World, w.g_disabled = false → (w.try_as_FrameworkElement h).isSome = true →
      w.visibility h = Visibility.Visible →
      GetButtonSvgUri w h = [] → GetAppBarButtonLabelText w h = [] →
      cbs.foldl (runCallback h) w =
        { w with idleQueue :=
            w.idleQueue ++ List.replicate (cbs.count Callback.deferredCheck) h } := by
  induction cbs with
  | nil =>
    intro w _ _ _ _ _
    simp
  | cons cb rest ih =>
    intro w hen hfe hv huri hlab
    cases cb with
    | ReHideCallback =>
      have hstep : runCallback h w Callback.ReHideCallback = w :=
        ReHideCallback_no_match h w (signalsMatch_empty w h huri hlab)
      rw [List.foldl_cons, hstep, ih w hen hfe hv huri hlab]
      simp
    | deferredCheck =>
      have hstep : runCallback h w Callback.deferredCheck = w.TryEnqueue h :=
        deferredCheck_empty_visible h w hen hfe hv huri hlab
      rw [List.foldl_cons, hstep,
        ih (w.TryEnqueue h) hen hfe hv
          ((GetButtonSvgUri_congr (by rfl) h).trans huri)
          ((GetAppBarButtonLabelText_congr (by rfl) h).trans hlab)]
      simp [World.TryEnqueue, List.replicate_succ]

/-- The host shows a collapsed element whose signals are empty: the element
stays shown and one idle-queue re-check is enqueued per registered deferred
watch. -/
theorem hostShow_empty (h : Nat) (w : World)
    (hen : w.g_disabled = false) (hfe : (w.try_as_FrameworkElement h).isSome = true)
    (huri : GetButtonSvgUri w h = []) (hlab : GetAppBarButtonLabelText w h = [])
    (hcol : w.visibility h = Visibility.Collapsed) :
    hostSetVisibility h Visibility.Visible w =
      { w with
        visibility := Function.update w.visibility h Visibility.Visible,
        idleQueue :=
          w.idleQueue ++ List.replicate ((w.callbacks h).count Callback.deferredCheck) h } := by
  have hne : w.visibility h ≠ Visibility.Visible := by rw [hcol]; decide
  simp only [hostSetVisibility, hne, if_false, notifyVisibilityChanged]
  rw [notify_empty h _ (w.setVisibility h Visibility.Visible) hen hfe
    (by simp [World.setVisibility])
    ((GetButtonSvgUri_congr (by rfl) h).trans huri)
    ((GetAppBarButtonLabelText_congr (by rfl) h).trans hlab)]
  rfl

theorem HideAdjacentSeparator_keeps_collapsed (t x : Nat) (w : World)
    (hx : w.visibility x = Visibility.Collapsed) :
    (HideAdjacentSeparator t w).visibility x = Visibility.Collapsed := by
  rcases HideAdjacentSeparator_cases t w with e | ⟨s, _, _, _, e⟩
  · rw [e]
    exact hx
  · rw [e]
    by_cases hxs : x = s
    · simp [World.setVisibility, hxs]
    · simp [World.setVisibility, Function.update_noteq hxs, hx]

/-- An idle-queue re-check writes visibilities and the log only, and only
collapses. -/
theorem layoutDeferredCheck_frame (t : Nat) (w : World) :
    (layoutDeferredCheck t w).tree = w.tree ∧
    (layoutDeferredCheck t w).g_disabled = w.g_disabled ∧
    (layoutDeferredCheck t w).g_settings = w.g_settings ∧
    (layoutDeferredCheck t w).idleQueue = w.idleQueue ∧
    (layoutDeferredCheck t w).callbacks = w.callbacks ∧
    ∀ x, w.visibility x = Visibility.Collapsed →
      (layoutDeferredCheck t w).visibility x = Visibility.Collapsed := by
  unfold layoutDeferredCheck
  split
  · exact ⟨rfl, rfl, rfl, rfl, rfl, fun _ hx => hx⟩
  · dsimp only
    split
    · obtain ⟨f1, f2, f3, f4, f5, _, _⟩ := HideAdjacentSeparator_frame t
        ((w.Wh_Log "Layout-deferred hide: %s"
          (if (GetAppBarButtonLabelText w t).isEmpty then GetButtonSvgUri w t
            else GetAppBarButtonLabelText w t)).setVisibility t Visibility.Collapsed)
      refine ⟨f1, f2, f3, f5, f4, fun x hx => ?_⟩
      apply HideAdjacentSeparator_keeps_collapsed
      by_cases hxt : x = t
      · simp [World.setVisibility, hxt]
      · simp [World.setVisibility, World.Wh_Log, Function.update_noteq hxt, hx]
    · exact ⟨rfl, rfl, rfl, rfl, rfl, fun _ hx => hx⟩

/-- Running the queued idle tasks collapses an element that is in the queue
and whose signals match. -/
theorem runIdleTask_iterate_collapses (h : Nat) :
    ∀ (n : Nat) (w : World), w.idleQueue.length = n → w.g_disabled = false →
      signalsMatch w h = true →
      (h ∈ w.idleQueue ∨ w.visibility h = Visibility.Collapsed) →
      (runIdleTask^[n] w).visibility h = Visibility.Collapsed := by
  intro n
  induction n with
  | zero =>
    intro w hlen _ _ hor
    have hq : w.idleQueue = [] := List.length_eq_zero.mp hlen
    rcases hor with hmem | hcol
    · rw [hq] at hmem
      exact absurd hmem (List.not_mem_nil h)
    · exact hcol
  | succ n ih =>
    intro w hlen hen hm hor
    cases hq : w.idleQueue with
    | nil =>
      rw [hq] at hlen
      exact absurd hlen (by simp)
    | cons t rest =>
      have hrun : runIdleTask w = layoutDeferredCheck t { w with idleQueue := rest } := by
        simp [runIdleTask, hq]
      obtain ⟨f1, f2, f3, f4, _, f6⟩ := layoutDeferredCheck_frame t { w with idleQueue := rest }
      have hm' : signalsMatch ({ w with idleQueue := rest } : World) h = true :=
        (signalsMatch_congr (by rfl) (by rfl) h).trans hm
      rw [Function.iterate_succ_apply, hrun]
      apply ih
      · rw [f4]
        rw [hq] at hlen
        simpa using hlen
      · rw [f2]
        exact hen
      · rw [signalsMatch_congr f1 f3 h]
        exact hm'
      · rcases hor with hmem | hcol
        · rw [hq] at hmem
          rcases List.mem_cons.mp hmem with heq | hrest
          · right
            subst heq
            exact (layoutDeferredCheck_match h ({ w with idleQueue := rest } : World)
              hen hm').1
          · left
            rw [f4]
            exact hrest
        · right
          exact f6 h hcol

/-- C5 (amended): while the feature is not disabled, an element (a framework
element) passed to `ProcessAppBarButton` with empty icon path and empty label
only gets one more visibility watch registered; no idle-queue re-check is
scheduled at that point.  (1) If its label is then populated with a value
matching a custom rule and its visibility changes from collapsed to shown, the
watch collapses it.  (2) If its visibility changes from collapsed to shown
while icon path and label are still empty, it stays shown and one idle-queue
re-check of it is scheduled per registered deferred watch; if the label holds a
matching value when a queued re-check of it runs, that re-check collapses it,
and so does running the whole queue. -/
theorem C5_deferred_resolution (w0 : World) (h : Nat)
    (hfe : (w0.try_as_FrameworkElement h).isSome = true)
    (huri : GetButtonSvgUri w0 h = []) (hlab : GetAppBarButtonLabelText w0 h = []) :
    (ProcessAppBarButton h w0 = w0.RegisterPropertyChangedCallback h Callback.deferredCheck ∧
      (ProcessAppBarButton h w0).callbacks h = w0.callbacks h ++ [Callback.deferredCheck] ∧
      (ProcessAppBarButton h w0).idleQueue = w0.idleQueue) ∧
    (∀ w2 : World, Callback.deferredCheck ∈ w2.callbacks h →
      w2.g_disabled = false → (w2.try_as_FrameworkElement h).isSome = true →
      ShouldHideByLabel w2.g_settings (GetAppBarButtonLabelText w2 h) = true →
      w2.visibility h = Visibility.Collapsed →
      (hostSetVisibility h Visibility.Visible w2).visibility h = Visibility.Collapsed) ∧
    (∀ w1 : World, Callback.deferredCheck ∈ w1.callbacks h →
      w1.g_disabled = false → (w1.try_as_FrameworkElement h).isSome = true →
      GetButtonSvgUri w1 h = [] → GetAppBarButtonLabelText w1 h = [] →
      w1.visibility h = Visibility.Collapsed →
      (hostSetVisibility h Visibility.Visible w1).visibility h = Visibility.Visible ∧
      (hostSetVisibility h Visibility.Visible w1).idleQueue =
        w1.idleQueue ++
          List.replicate ((w1.callbacks h).count Callback.deferredCheck) h ∧
      h ∈ (hostSetVisibility h Visibility.Visible w1).idleQueue) ∧
    (∀ (w3 : World) (rest : List Nat), w3.idleQueue = h :: rest → w3.g_disabled = false →
      ShouldHideByLabel w3.g_settings (GetAppBarButtonLabelText w3 h) = true →
      (runIdleTask w3).visibility h = Visibility.Collapsed ∧
      (runIdleTask w3).idleQueue = rest) ∧
    (∀ w3 : World, h ∈ w3.idleQueue → w3.g_disabled = false →
      ShouldHideByLabel w3.g_settings (GetAppBarButtonLabelText w3 h) = true →
      (drainIdleQueue w3).visibility h = Visibility.Collapsed) := by
  have hproc := ProcessAppBarButton_both_empty w0 h hfe huri hlab
  refine ⟨⟨hproc, ?_, ?_⟩, ?_, ?_, ?_, ?_⟩
  · rw [hproc]
    simp [World.RegisterPropertyChangedCallback]
  · rw [hproc]
    rfl
  · intro w2 hreg hen2 hfe2 hl2 hcol2
    have hm : signalsMatch w2 h = true := by simp [signalsMatch, hl2]
    have hne : w2.visibility h ≠ Visibility.Visible := by rw [hcol2]; decide
    have hhost : hostSetVisibility h Visibility.Visible w2 =
        (w2.callbacks h).foldl (runCallback h) (w2.setVisibility h Visibility.Visible) := by
      simp [hostSetVisibility, hne, notifyVisibilityChanged, World.setVisibility]
    obtain ⟨_, r2⟩ := notify_match h (w2.setVisibility h Visibility.Visible) (w2.callbacks h)
      (List.ne_nil_of_mem hreg) hen2 hfe2 (by simp [World.setVisibility])
      ((signalsMatch_congr (by rfl) (by rfl) h).trans hm)
    rw [hhost, r2, (HideAdjacentSeparator_frame h _).2.2.2.2.2.2]
    simp [World.setVisibility]
  · intro w1 hreg hen1 hfe1 hu1 hl1 hcol1
    rw [hostShow_empty h w1 hen1 hfe1 hu1 hl1 hcol1]
    refine ⟨by simp, rfl, ?_⟩
    have hpos : 0 < (w1.callbacks h).count Callback.deferredCheck :=
      List.count_pos_iff.mpr hreg
    show h ∈ w1.idleQueue ++ List.replicate ((w1.callbacks h).count Callback.deferredCheck) h
    rw [List.mem_append]
    right
    rw [List.mem_replicate]
    exact ⟨by omega, rfl⟩
  · intro w3 rest hq3 hen3 hl3
    have hm3 : signalsMatch ({ w3 with idleQueue := rest } : World) h = true := by
      have : signalsMatch w3 h = true := by simp [signalsMatch, hl3]
      rw [← this]
      exact signalsMatch_congr (by rfl) (by rfl) h
    have hrun : runIdleTask w3 = layoutDeferredCheck h { w3 with idleQueue := rest } := by
      simp [runIdleTask, hq3]
    rw [hrun]
    exact layoutDeferredCheck_match h _ hen3 hm3
  · intro w3 hmem hen3 hl3
    have hm : signalsMatch w3 h = true := by simp [signalsMatch, hl3]
    exact runIdleTask_iterate_collapses h _ w3 rfl hen3 hm (Or.inl hmem)

/-- C5 on the sample bar: the fresh button is collapsed by the watch when it
is shown after its label became "Share". -/
theorem C5_witness_freshButtonBar :
    (hostSetVisibility 1 Visibility.Visible
      (populateShareLabel (ProcessAppBarButton 1 freshButtonBar))).visibility 1 =
      Visibility.Collapsed :=
  (C5_deferred_resolution freshButtonBar 1 (by decide) (by decide) (by decide)).2.1
    (populateShareLabel (ProcessAppBarButton 1 freshButtonBar))
    (by decide) (by decide) (by decide) (by decide) (by decide)

/-- C5 as stated fails in its second sequence: after `ProcessAppBarButton` saw
the element with both signals empty, nothing is queued; when the label becomes
"Share" and the visibility never changes, the dispatcher has no re-check to
run and the element stays visible although its label matches a custom rule. -/
theorem C5_counterexample_no_idle_recheck :
    GetButtonSvgUri (freshButtonBar.setVisibility 1 Visibility.Visible) 1 = [] ∧
    GetAppBarButtonLabelText (freshButtonBar.setVisibility 1 Visibility.Visible) 1 = [] ∧
    (ProcessAppBarButton 1 (freshButtonBar.setVisibility 1 Visibility.Visible)).idleQueue = [] ∧
    ShouldHideByLabel scenarioSettings
      (GetAppBarButtonLabelText (populateShareLabel
        (ProcessAppBarButton 1 (freshButtonBar.setVisibility 1 Visibility.Visible))) 1) = true ∧
    (runIdleTask (populateShareLabel
      (ProcessAppBarButton 1 (freshButtonBar.setVisibility 1 Visibility.Visible)))).visibility 1 =
      Visibility.Visible := by
  decide

/-! ## The hide operation -/

theorem HideButton_effect (h : Nat) (reason : wstring) (w : World) :
    (HideButton h reason w).tree = w.tree ∧
    (HideButton h reason w).visibility h = Visibility.Collapsed ∧
    (HideButton h reason w).callbacks h = w.callbacks h ++ [Callback.ReHideCallback] ∧
    (HideButton h reason w).log =
      w.log ++ [LogLine.text "Hiding button: %s" (c_str reason)] ∧
    ((HideButton h reason w).visibility = Function.update w.visibility h Visibility.Collapsed ∨
      ∃ s, s ≠ h ∧ w.visibility s = Visibility.Visible ∧
        isSeparator w s = true ∧
        (HideButton h reason w).visibility =
          Function.update (Function.update w.visibility h Visibility.Collapsed) s
            Visibility.Collapsed) := by
  obtain ⟨f1, _, _, f4, _, f6, f7⟩ := HideAdjacentSeparator_frame h
    ((w.Wh_Log "Hiding button: %s" reason).setVisibility h Visibility.Collapsed)
  refine ⟨f1, ?_, ?_, ?_, ?_⟩
  · show (HideAdjacentSeparator h _).visibility h = Visibility.Collapsed
    rw [f7]
    simp [World.setVisibility]
  · show Function.update (HideAdjacentSeparator h _).callbacks h
      ((HideAdjacentSeparator h _).callbacks h ++ [Callback.ReHideCallback]) h = _
    rw [f4]
    simp [World.setVisibility, World.Wh_Log]
  · show (HideAdjacentSeparator h _).log = _
    rw [f6]
    rfl
  · show (HideAdjacentSeparator h _).visibility = _ ∨ ∃ s, _ ∧ _ ∧ _ ∧
      (HideAdjacentSeparator h _).visibility = _
    rcases HideAdjacentSeparator_cases h
      ((w.Wh_Log "Hiding button: %s" reason).setVisibility h Visibility.Collapsed) with
      e | ⟨s, hne, hvis, hsep, e⟩
    · exact Or.inl (by rw [e]; rfl)
    · refine Or.inr ⟨s, hne, ?_, ?_, by rw [e]; rfl⟩
      · simp only [isVisibleElement, Bool.and_eq_true, decide_eq_true_eq] at hvis
        have hv := hvis.2
        simp only [World.setVisibility, World.Wh_Log, Function.update_noteq hne] at hv
        exact hv
      · have hsame : isSeparator
            ((w.Wh_Log "Hiding button: %s" reason).setVisibility h Visibility.Collapsed) s =
            isSeparator w s := rfl
        rw [← hsame]
        exact hsep

theorem locatedAt_congr {w₁ w₂ : World} (ht : w₁.tree = w₂.tree) (cs : List Nat) (h k : Nat) :
    locatedAt w₁ cs h k ↔ locatedAt w₂ cs h k := by
  simp only [locatedAt, try_as_congr ht]

/-- The visibilities a second `HideButton` leaves are those separator
suppression produces from the state the first one left. -/
theorem HideButton_twice_visibility (w : World) (h : Nat) (reason : wstring) :
    (HideButton h reason (HideButton h reason w)).visibility =
      (HideAdjacentSeparator h (HideButton h reason w)).visibility := by
  obtain ⟨_, a2, _, _, _⟩ := HideButton_effect h reason w
  show (HideAdjacentSeparator h _).visibility = _
  refine HideAdjacentSeparator_visibility_congr (by rfl) ?_ h
  show Function.update (HideButton h reason w).visibility h Visibility.Collapsed = _
  rw [← a2]
  exact Function.update_eq_self h _

/-- C6 (amended): invoking `HideButton` twice in succession on the same
element leaves the element collapsed and the tree untouched, but it is not the
state one invocation leaves: each invocation logs a line (the reason as a
NUL-terminated string) and registers one more `ReHideCallback` watch (two more
after two calls), and the second invocation runs separator suppression again on
the state the first one left.  When the element is at index `k` among its
parent's children, the second invocation takes the first visible sibling
scanning backward from index `k - 1` in that state and collapses it exactly
when it is a separator; when that sibling is not a separator, when there is no
visible preceding sibling, when the element has no parent or is not found among
its parent's children, the second invocation changes no visibility.  So it
changes at most one further visibility. -/
theorem C6_HideButton_twice (w : World) (h : Nat) (reason : wstring) :
    (HideButton h reason (HideButton h reason w)).visibility h = Visibility.Collapsed ∧
    (HideButton h reason (HideButton h reason w)).tree = w.tree ∧
    (HideButton h reason w).callbacks h = w.callbacks h ++ [Callback.ReHideCallback] ∧
    (HideButton h reason (HideButton h reason w)).callbacks h =
      w.callbacks h ++ [Callback.ReHideCallback, Callback.ReHideCallback] ∧
    (HideButton h reason (HideButton h reason w)).log =
      w.log ++ [LogLine.text "Hiding button: %s" (c_str reason),
        LogLine.text "Hiding button: %s" (c_str reason)] ∧
    ((HideButton h reason (HideButton h reason w)).visibility =
        (HideButton h reason w).visibility ∨
      ∃ s, s ≠ h ∧ (HideButton h reason w).visibility s = Visibility.Visible ∧
        isSeparator w s = true ∧
        (HideButton h reason (HideButton h reason w)).visibility =
          Function.update (HideButton h reason w).visibility s Visibility.Collapsed) ∧
    (∀ parent k, GetParent w h = some parent →
      locatedAt w (GetChildren w parent) h k →
      (HideButton h reason (HideButton h reason w)).visibility =
        match firstVisibleBefore (HideButton h reason w) (GetChildren w parent) k with
        | some s =>
          if isSeparator w s then
            Function.update (HideButton h reason w).visibility s Visibility.Collapsed
          else (HideButton h reason w).visibility
        | none => (HideButton h reason w).visibility) ∧
    ((GetParent w h = none ∨
      ∃ parent, GetParent w h = some parent ∧
        ∀ k, ¬ locatedAt w (GetChildren w parent) h k) →
      (HideButton h reason (HideButton h reason w)).visibility =
        (HideButton h reason w).visibility) := by
  obtain ⟨a1, a2, a3, a4, _⟩ := HideButton_effect h reason w
  obtain ⟨b1, b2, b3, b4, b5⟩ := HideButton_effect h reason (HideButton h reason w)
  have hself : Function.update (HideButton h reason w).visibility h Visibility.Collapsed =
      (HideButton h reason w).visibility := by
    rw [← a2]
    exact Function.update_eq_self h _
  have hsepc : isSeparator (HideButton h reason w) = isSeparator w := by
    funext s
    simp only [isSeparator, try_as_congr a1]
  refine ⟨b2, b1.trans a1, a3, ?_, ?_, ?_, ?_, ?_⟩
  · rw [b3, a3]
    simp
  · rw [b4, a4]
    simp
  · rcases b5 with e | ⟨s, hne, hv, hsep, e⟩
    · exact Or.inl (e.trans hself)
    · refine Or.inr ⟨s, hne, hv, ?_, by rw [e, hself]⟩
      rw [← hsepc]
      exact hsep
  · intro parent k hp hk
    have hp1 : GetParent (HideButton h reason w) h = some parent := by
      rw [GetParent_congr a1]
      exact hp
    have hk1 : locatedAt (HideButton h reason w)
        (GetChildren (HideButton h reason w) parent) h k := by
      rw [GetChildren_congr a1]
      exact (locatedAt_congr a1 _ h k).mpr hk
    rw [HideButton_twice_visibility,
      HideAdjacentSeparator_located (HideButton h reason w) h parent k hp1 hk1,
      GetChildren_congr a1]
    unfold suppressPrecedingSeparator
    cases firstVisibleBefore (HideButton h reason w) (GetChildren w parent) k with
    | none => rfl
    | some s =>
      rw [hsepc]
      by_cases hsep : isSeparator w s = true
      · simp [hsep, World.setVisibility]
      · simp [hsep]
  · intro hno
    rw [HideButton_twice_visibility]
    have hno1 : GetParent (HideButton h reason w) h = none ∨
        ∃ parent, GetParent (HideButton h reason w) h = some parent ∧
          ∀ k, ¬ locatedAt (HideButton h reason w)
            (GetChildren (HideButton h reason w) parent) h k := by
      rw [GetParent_congr a1, GetChildren_congr a1]
      rcases hno with hn | ⟨parent, hp, hk⟩
      · exact Or.inl hn
      · exact Or.inr ⟨parent, hp, fun k hk1 => hk k ((locatedAt_congr a1 _ h k).mp hk1)⟩
    rw [HideAdjacentSeparator_not_found (HideButton h reason w) h hno1]

/-- C6 as stated fails: on the sample command bar one `HideButton` on the
"Share" button collapses the separator before it and registers one watch; a
second `HideButton` skips the collapsed siblings, collapses the first
separator as well and registers a second watch. -/
theorem C6_counterexample_second_separator :
    (HideButton 4 (L "Share") commandBar).visibility 1 = Visibility.Visible ∧
    (HideButton 4 (L "Share") commandBar).visibility 3 = Visibility.Collapsed ∧
    (HideButton 4 (L "Share") commandBar).callbacks 4 = [Callback.ReHideCallback] ∧
    (HideButton 4 (L "Share") (HideButton 4 (L "Share") commandBar)).visibility 1 =
      Visibility.Collapsed ∧
    (HideButton 4 (L "Share") (HideButton 4 (L "Share") commandBar)).visibility 3 =
      Visibility.Collapsed ∧
    (HideButton 4 (L "Share") (HideButton 4 (L "Share") commandBar)).callbacks 4 =
      [Callback.ReHideCallback, Callback.ReHideCallback] := by
  decide

/-- C7 (amended): when the icon path matches an enabled icon rule,
`ProcessAppBarButton` hides the element through the icon check, whatever the
label is: it is one `HideButton` call whose reason is the label text, or the
icon path when the label is empty, and the one line logged shows that reason as
a NUL-terminated string (its code units before the first NUL).  So for an
element whose label also matches a custom rule the element is hidden exactly
once (one log line, one watch registered, element collapsed) and the reason
reported is the label text up to its first NUL, not the icon. -/
theorem C7_icon_check_first (w : World) (h : Nat)
    (hfe : (w.try_as_FrameworkElement h).isSome = true)
    (hicon : ShouldHideByIcon w.g_settings (GetButtonSvgUri w h) = true) :
    ProcessAppBarButton h w =
      HideButton h
        (if (GetAppBarButtonLabelText w h).isEmpty then GetButtonSvgUri w h
          else GetAppBarButtonLabelText w h) w ∧
    (ProcessAppBarButton h w).log =
      w.log ++
        [LogLine.text "Hiding button: %s"
          (c_str (if (GetAppBarButtonLabelText w h).isEmpty then GetButtonSvgUri w h
            else GetAppBarButtonLabelText w h))] ∧
    (ShouldHideByLabel w.g_settings (GetAppBarButtonLabelText w h) = true →
      ProcessAppBarButton h w = HideButton h (GetAppBarButtonLabelText w h) w ∧
      (ProcessAppBarButton h w).log =
        w.log ++
          [LogLine.text "Hiding button: %s" (c_str (GetAppBarButtonLabelText w h))] ∧
      (ProcessAppBarButton h w).callbacks h = w.callbacks h ++ [Callback.ReHideCallback] ∧
      (ProcessAppBarButton h w).visibility h = Visibility.Collapsed) := by
  obtain ⟨fe, hfe'⟩ := Option.isSome_iff_exists.mp hfe
  have hproc : ProcessAppBarButton h w =
      HideButton h
        (if (GetAppBarButtonLabelText w h).isEmpty then GetButtonSvgUri w h
          else GetAppBarButtonLabelText w h) w := by
    simp [ProcessAppBarButton, hfe', hicon]
  refine ⟨hproc, ?_, fun hlabel => ?_⟩
  · rw [hproc]
    exact (HideButton_effect h _ w).2.2.2.1
  have hne : (GetAppBarButtonLabelText w h).isEmpty = false := by
    cases hl : GetAppBarButtonLabelText w h with
    | nil =>
      rw [hl] at hlabel
      simp [ShouldHideByLabel] at hlabel
    | cons a rest => rfl
  have hproc' : ProcessAppBarButton h w = HideButton h (GetAppBarButtonLabelText w h) w := by
    rw [hproc, hne]
    simp
  obtain ⟨_, e2, e3, e4, _⟩ := HideButton_effect h (GetAppBarButtonLabelText w h) w
  refine ⟨hproc', ?_, ?_, ?_⟩
  · rw [hproc', e4]
  · rw [hproc', e3]
  · rw [hproc', e2]

/-- C7 on the sample command bar: the "Share" button with the rotate-left icon
matches both rules and is hidden with the label as the reported reason. -/
theorem C7_witness_commandBar :
    (ProcessAppBarButton 4 commandBar).log = [LogLine.text "Hiding button: %s" (L "Share")] :=
  ((C7_icon_check_first commandBar 4 (by decide) (by decide)).2.2 (by decide)).2.1

/-- C7 as stated fails: for an element matching both an icon rule and a label
rule the reason passed to the log is the label text "Share", not the icon
path; it is the very line logged for a button hidden by its label alone. -/
theorem C7_counterexample_reason_is_label :
    ShouldHideByIcon commandBar.g_settings (GetButtonSvgUri commandBar 4) = true ∧
    ShouldHideByLabel commandBar.g_settings (GetAppBarButtonLabelText commandBar 4) = true ∧
    GetButtonSvgUri commandBar 4 = L "ms-appx:///Files/windows.rotate270.svg" ∧
    (ProcessAppBarButton 4 commandBar).log = [LogLine.text "Hiding button: %s" (L "Share")] ∧
    ShouldHideByIcon (populateShareLabel freshButtonBar).g_settings
      (GetButtonSvgUri (populateShareLabel freshButtonBar) 1) = false ∧
    (ProcessAppBarButton 1 (populateShareLabel freshButtonBar)).log =
      [LogLine.text "Hiding button: %s" (L "Share")] := by
  decide

/-! ## Mutation observer -/

theorem FromHandle_treeCalls (diag : Nat → HRESULT × Option Nat)
    (process : Nat → World → Option HRESULT × World) (handle : Nat) :
    FromHandle (treeCalls diag process) handle =
      if FAILED (diag handle).1 then Except.error (diag handle).1
      else Except.ok (diag handle).2 := rfl

theorem ancestorWalk_treeCalls (diag : Nat → HRESULT × Option Nat)
    (process : Nat → World → Option HRESULT × World) (w : World) :
    ∀ n fe, ancestorWalk (treeCalls diag process) n (GetParent w fe) w =
      match (ancestors w n fe).find? (hasAppBarButtonClass w) with
      | some t => process t w
      | none => (none, w) := by
  intro n
  induction n with
  | zero =>
    intro fe
    simp [ancestorWalk, ancestors]
  | succ n ih =>
    intro fe
    cases hp : GetParent w fe with
    | none => simp [ancestorWalk, ancestors, hp]
    | some p =>
      cases hfe : w.try_as_FrameworkElement p with
      | none =>
        simp [ancestorWalk, ancestors, hp, treeCalls, hfe, hasAppBarButtonClass]
        exact ih p
      | some e =>
        by_cases hcn : L "AppBarButton" <:+: e.className
        · simp [ancestorWalk, ancestors, hp, treeCalls, hfe, hasAppBarButtonClass,
            find_isSome_iff_infix, hcn]
        · simp [ancestorWalk, ancestors, hp, treeCalls, hfe, hasAppBarButtonClass,
            find_isSome_iff_infix, hcn]
          exact ih p

theorem directButton_treeCalls (diag : Nat → HRESULT × Option Nat)
    (process : Nat → World → Option HRESULT × World) (element : VisualElement) (w : World) :
    (directButton (treeCalls diag process) element w).2 =
      match resolvesToElement diag w element.Handle with
      | some t => (process t w).2
      | none => w := by
  simp only [directButton, FromHandle_treeCalls, resolvesToElement]
  by_cases hf : FAILED (diag element.Handle).1 = true
  · simp [hf]
  · simp only [hf, Bool.false_eq_true, if_false]
    cases hobj : (diag element.Handle).2 with
    | none => simp
    | some o =>
      by_cases hfe : (w.try_as_FrameworkElement o).isSome = true
      · simp [treeCalls, hfe, Option.filter]
      · simp [treeCalls, hfe, Option.filter]

theorem textLabelAdded_treeCalls (diag : Nat → HRESULT × Option Nat)
    (process : Nat → World → Option HRESULT × World) (element : VisualElement) (w : World) :
    (textLabelAdded (treeCalls diag process) element w).2 =
      match (match resolvesToElement diag w element.Handle with
        | some fe => (ancestors w 10 fe).find? (hasAppBarButtonClass w)
        | none => none) with
      | some t => (process t w).2
      | none => w := by
  simp only [textLabelAdded, FromHandle_treeCalls, resolvesToElement]
  by_cases hf : FAILED (diag element.Handle).1 = true
  · simp [hf]
  · simp only [hf, Bool.false_eq_true, if_false]
    cases hobj : (diag element.Handle).2 with
    | none => simp
    | some o =>
      by_cases hfe : (w.try_as_FrameworkElement o).isSome = true
      · have hwalk := ancestorWalk_treeCalls diag process w 10 o
        have hgp : (treeCalls diag process).GetParent w o = Except.ok (GetParent w o) := rfl
        have htry : (treeCalls diag process).try_as_FrameworkElement w o = true := hfe
        simp only [htry, if_true, hgp, hwalk, Option.filter, hfe]
        cases (ancestors w 10 o).find? (hasAppBarButtonClass w) <;> rfl
      · have htry : (treeCalls diag process).try_as_FrameworkElement w o = false := by
          simpa [treeCalls] using hfe
        simp [htry, Option.filter, hfe]

theorem OnVisualTreeChange_treeCalls (diag : Nat → HRESULT × Option Nat)
    (process : Nat → World → Option HRESULT × World) (element : VisualElement)
    (mutationType : VisualMutationType) (w : World) :
    OnVisualTreeChange (treeCalls diag process) element mutationType w =
      (Except.ok S_OK,
        match dispatchTarget diag w element mutationType with
        | some t => (process t w).2
        | none => w) := by
  unfold OnVisualTreeChange OnVisualTreeChangeBody dispatchTarget
  by_cases hd : w.g_disabled = true
  · simp [hd]
  · have hd' : w.g_disabled = false := by simpa using hd
    by_cases hm : mutationType = VisualMutationType.Add
    · cases hty : element.TypeName with
      | none => simp [hd', hm]
      | some typeName =>
        by_cases hb : L "AppBarButton" <:+: typeName
        · simp [hd', hm, find_isSome_iff_infix, hb, directButton_treeCalls]
        · by_cases hn : element.Name = some (L "TextLabel")
          · by_cases ht : L "TextBlock" <:+: typeName
            · simp [hd', hm, find_isSome_iff_infix, hb, hn, ht, textLabelAdded_treeCalls]
            · simp [hd', hm, find_isSome_iff_infix, hb, hn, ht]
          · have hn' : ¬ element.Name.getD [] = L "TextLabel" := by
              intro h
              cases hname : element.Name with
              | none =>
                rw [hname] at h
                exact absurd h (by decide)
              | some nm =>
                rw [hname] at h hn
                exact hn (by simpa using h)
            simp [hd', hm, find_isSome_iff_infix, hb, hn, hn']
    · simp [hd', hm]

theorem dispatchTarget_eq_some_iff (diag : Nat → HRESULT × Option Nat) (w : World)
    (element : VisualElement) (mutationType : VisualMutationType) (t : Nat) :
    dispatchTarget diag w element mutationType = some t ↔
      w.g_disabled = false ∧ mutationType = VisualMutationType.Add ∧
      ∃ typeName, element.TypeName = some typeName ∧
        ((L "AppBarButton" <:+: typeName ∧
            resolvesToElement diag w element.Handle = some t) ∨
          (¬ L "AppBarButton" <:+: typeName ∧ element.Name = some (L "TextLabel") ∧
            L "TextBlock" <:+: typeName ∧
            ∃ fe, resolvesToElement diag w element.Handle = some fe ∧
              (ancestors w 10 fe).find? (hasAppBarButtonClass w) = some t)) := by
  unfold dispatchTarget
  by_cases hg : w.g_disabled = false ∧ mutationType = VisualMutationType.Add
  · obtain ⟨hd, hm⟩ := hg
    cases hty : element.TypeName with
    | none => simp [hd, hm]
    | some typeName =>
      by_cases hb : L "AppBarButton" <:+: typeName
      · simp [hd, hm, hb]
      · by_cases hn : element.Name = some (L "TextLabel") ∧ L "TextBlock" <:+: typeName
        · obtain ⟨hn1, hn2⟩ := hn
          cases hr : resolvesToElement diag w element.Handle with
          | none => simp [hd, hm, hb, hn1, hn2]
          | some fe => simp [hd, hm, hb, hn1, hn2]
        · simp only [hd, hm, and_self, if_true, hb, if_false, hn, reduceCtorEq, false_iff]
          rintro ⟨_, _, tn, htn, h | ⟨_, h1, h2, _⟩⟩
          · exact hb (by cases htn; exact h.1)
          · exact hn ⟨h1, by cases htn; exact h2⟩
  · simp only [hg, if_false, reduceCtorEq, false_iff]
    rintro ⟨h1, h2, _⟩
    exact hg ⟨h1, h2⟩

/-- C8: for every mutation event `OnVisualTreeChange` returns `S_OK` and
invokes the Button Processor at most once: the resulting world is the one a
single invocation on the dispatch target leaves, and the unchanged world when
there is no target.  There is a target exactly when the feature is not
disabled, the mutation is `Add`, the event has a type name, and either the
type name contains "AppBarButton" and the handle resolves to a framework
element (the target), or the type name does not contain "AppBarButton", the
declared name is "TextLabel", the type name contains "TextBlock", the handle
resolves to a framework element, and one of its nearest 10 ancestors has a
class name containing "AppBarButton" (the target is the nearest such).  A
button that is the eleventh ancestor is not processed, one that is the tenth
is. -/
theorem C8_OnVisualTreeChange_dispatch (diag : Nat → HRESULT × Option Nat)
    (process : Nat → World → Option HRESULT × World) (element : VisualElement)
    (mutationType : VisualMutationType) (w : World) :
    OnVisualTreeChange (treeCalls diag process) element mutationType w =
      (Except.ok S_OK,
        match dispatchTarget diag w element mutationType with
        | some t => (process t w).2
        | none => w) ∧
    OnVisualTreeChange (programCalls diag) element mutationType w =
      (Except.ok S_OK,
        match dispatchTarget diag w element mutationType with
        | some t => ProcessAppBarButton t w
        | none => w) ∧
    (∀ t, dispatchTarget diag w element mutationType = some t ↔
      w.g_disabled = false ∧ mutationType = VisualMutationType.Add ∧
      ∃ typeName, element.TypeName = some typeName ∧
        ((L "AppBarButton" <:+: typeName ∧
            resolvesToElement diag w element.Handle = some t) ∨
          (¬ L "AppBarButton" <:+: typeName ∧ element.Name = some (L "TextLabel") ∧
            L "TextBlock" <:+: typeName ∧
            ∃ fe, resolvesToElement diag w element.Handle = some fe ∧
              (ancestors w 10 fe).find? (hasAppBarButtonClass w) = some t))) ∧
    dispatchTarget identityDiag deepLabel (textLabelEvent 11) VisualMutationType.Add = none ∧
    dispatchTarget identityDiag deepLabel (textLabelEvent 10) VisualMutationType.Add = some 0 := by
  refine ⟨OnVisualTreeChange_treeCalls diag process element mutationType w, ?_,
    dispatchTarget_eq_some_iff diag w element mutationType, by decide, by decide⟩
  have h := OnVisualTreeChange_treeCalls diag (fun h w => (none, ProcessAppBarButton h w))
    element mutationType w
  exact h

/-- C9: whatever the diagnostics service, the framework calls and the button
processor do, including raising an exception at any of them,
`OnVisualTreeChange` returns `S_OK` to the diagnostics channel and lets no
exception out; when the handle does not resolve the world is left as it
was. -/
theorem C9_OnVisualTreeChange_returns_S_OK (c : Calls) (element : VisualElement)
    (mutationType : VisualMutationType) (w : World) :
    (OnVisualTreeChange c element mutationType w).1 = Except.ok S_OK ∧
    (FAILED (c.GetIInspectableFromHandle element.Handle).1 = true →
      OnVisualTreeChange c element mutationType w = (Except.ok S_OK, w)) := by
  have hbody : ∃ w', OnVisualTreeChangeBody c element mutationType w = (Except.ok S_OK, w') := by
    unfold OnVisualTreeChangeBody
    dsimp only
    split_ifs <;> exact ⟨_, rfl⟩
  obtain ⟨w', hw'⟩ := hbody
  constructor
  · simp only [OnVisualTreeChange, hw']
  · intro hf
    have hfrom : FromHandle c element.Handle =
        Except.error (c.GetIInspectableFromHandle element.Handle).1 := by
      simp [FromHandle, hf]
    have h1 : (directButton c element w).2 = w := by simp [directButton, hfrom]
    have h2 : (textLabelAdded c element w).2 = w := by simp [textLabelAdded, hfrom]
    have hwb : OnVisualTreeChangeBody c element mutationType w = (Except.ok S_OK, w) := by
      unfold OnVisualTreeChangeBody
      dsimp only
      rw [h1, h2]
      split_ifs <;> rfl
    simp only [OnVisualTreeChange, hwb]

/-! ## TAP injection -/

theorem candidateNames_succ (i k : Nat) :
    candidateNames i (k + 1) = connectionName (i + 1) :: candidateNames (i + 1) k := by
  simp only [candidateNames, List.range_succ_eq_map, List.map_cons, List.map_map]
  refine congrArg₂ _ rfl (List.map_congr_left fun j _ => ?_)
  simp only [Function.comp_apply]
  congr 1
  omega

theorem candidateNames_add (i k m : Nat) :
    candidateNames i (k + m) = candidateNames i k ++ candidateNames (i + k) m := by
  induction k generalizing i with
  | zero => simp [candidateNames]
  | succ k ih =>
    rw [show k + 1 + m = (k + m) + 1 by omega, candidateNames_succ, candidateNames_succ, ih]
    rw [show i + 1 + k = i + (k + 1) by omega]
    rfl

theorem attemptAll_append {σ : Type} (ixde : wstring → σ → HRESULT × σ) (l₁ l₂ : List wstring) :
    ∀ s, (attemptAll ixde (l₁ ++ l₂) s).1 =
      (attemptAll ixde l₁ s).1 ++ (attemptAll ixde l₂ (attemptAll ixde l₁ s).2).1 := by
  induction l₁ with
  | nil => intro s; rfl
  | cons a rest ih =>
    intro s
    simp only [List.cons_append, attemptAll]
    exact congrArg ((ixde a s).1 :: ·) (ih (ixde a s).2)

theorem connectLoop_firstAccepted {σ : Type} (ixde : wstring → σ → HRESULT × σ) :
    ∀ n i hr0 s, 0 < n →
      ∃ k, 1 ≤ k ∧ k ≤ n ∧
        firstAccepted ixde i k s (connectLoop ixde n i hr0 s).1 (connectLoop ixde n i hr0 s).2 ∧
        ((connectLoop ixde n i hr0 s).1 ≠ HRESULT_FROM_WIN32 ERROR_NOT_FOUND ∨ k = n) := by
  intro n
  induction n with
  | zero => intro i hr0 s h; omega
  | succ n ih =>
    intro i hr0 s _
    have hone : candidateNames i 1 = [connectionName (i + 1)] := by
      simp [candidateNames, List.range_succ]
    by_cases hacc : (ixde (connectionName (i + 1)) s).1 ≠ HRESULT_FROM_WIN32 ERROR_NOT_FOUND
    · have hloop : connectLoop ixde (n + 1) i hr0 s = ixde (connectionName (i + 1)) s := by
        simp [connectLoop, hacc]
      refine ⟨1, le_refl 1, by omega, ?_, Or.inl (by rw [hloop]; exact hacc)⟩
      rw [hloop]
      simp [firstAccepted, hone, attemptAll]
    · have hnf : (ixde (connectionName (i + 1)) s).1 = HRESULT_FROM_WIN32 ERROR_NOT_FOUND := by
        simpa using hacc
      have hloop : connectLoop ixde (n + 1) i hr0 s =
          connectLoop ixde n (i + 1) (ixde (connectionName (i + 1)) s).1
            (ixde (connectionName (i + 1)) s).2 := by
        simp [connectLoop, hnf]
      rcases Nat.eq_zero_or_pos n with hn | hn
      · subst hn
        have hl0 : connectLoop ixde (0 + 1) i hr0 s = ixde (connectionName (i + 1)) s := by
          rw [hloop]
          rfl
        refine ⟨1, le_refl 1, le_refl 1, ?_, Or.inr rfl⟩
        rw [hl0]
        simp [firstAccepted, hone, attemptAll]
      · obtain ⟨k, hk1, hkn, ⟨hs, hlast, hall⟩, hor⟩ :=
          ih (i + 1) (ixde (connectionName (i + 1)) s).1 (ixde (connectionName (i + 1)) s).2 hn
        refine ⟨k + 1, by omega, by omega, ?_, ?_⟩
        · rw [hloop]
          have hne : (attemptAll ixde (candidateNames (i + 1) k)
              (ixde (connectionName (i + 1)) s).2).1 ≠ [] := by
            intro hnil
            rw [hnil] at hlast
            simp at hlast
          refine ⟨?_, ?_, ?_⟩
          · rw [candidateNames_succ]
            exact hs
          · rw [candidateNames_succ]
            simp only [attemptAll]
            rw [List.getLast?_cons, hlast]
            rfl
          · rw [candidateNames_succ]
            simp only [attemptAll]
            rw [List.dropLast_cons_of_ne_nil hne]
            intro r hr
            rcases List.mem_cons.mp hr with h | h
            · rw [h]; exact hnf
            · exact hall r h
        · rw [hloop]
          rcases hor with h | h
          · exact Or.inl h
          · exact Or.inr (by omega)

/-- C10: when the module, its file name, the framework module and the entry
point `InitializeXamlDiagnosticsEx` are found, `InjectWindhawkTAP` attempts
registration with "WinUIVisualDiagConnection1", "WinUIVisualDiagConnection2",
... in increasing order and with exactly the first `k` of them, for some `k`
between 1 and 10000: every attempt before the last reported "not found", the
value returned is the last attempt's result, the host is left in the state
after those `k` attempts (no later attempt is made), and either that result is
not "not found" or all 10000 identifiers were tried.  If all 10000 attempts
report "not found" the value returned is "not found". -/
theorem C10_InjectWindhawkTAP_first_accepted {σ : Type} (host : Host σ) (s : σ)
    (ixde : wstring → wstring → σ → HRESULT × σ)
    (hmod : host.GetCurrentModuleHandle.isSome = true)
    (hfile : host.GetModuleFileName.1 ≠ 0 ∧ host.GetModuleFileName.1 ≠ MAX_PATH)
    (hwux : host.FrameworkUdk.isSome = true)
    (hixde : host.InitializeXamlDiagnosticsEx = some ixde) :
    (∃ k, 1 ≤ k ∧ k ≤ 10000 ∧
      firstAccepted (fun name => ixde name host.GetModuleFileName.2) 0 k s
        (InjectWindhawkTAP host s).1 (InjectWindhawkTAP host s).2 ∧
      ((InjectWindhawkTAP host s).1 ≠ HRESULT_FROM_WIN32 ERROR_NOT_FOUND ∨ k = 10000)) ∧
    ((∀ r ∈ (attemptAll (fun name => ixde name host.GetModuleFileName.2)
        (candidateNames 0 10000) s).1, r = HRESULT_FROM_WIN32 ERROR_NOT_FOUND) →
      (InjectWindhawkTAP host s).1 = HRESULT_FROM_WIN32 ERROR_NOT_FOUND) ∧
    candidateNames 0 2 = [L "WinUIVisualDiagConnection1", L "WinUIVisualDiagConnection2"] := by
  obtain ⟨m, hm⟩ := Option.isSome_iff_exists.mp hmod
  obtain ⟨u, hu⟩ := Option.isSome_iff_exists.mp hwux
  have hrun : InjectWindhawkTAP host s =
      connectLoop (fun name => ixde name host.GetModuleFileName.2) 10000 0 host.hr s := by
    simp [InjectWindhawkTAP, hm, hu, hixde, hfile.1, hfile.2]
  have hloop := connectLoop_firstAccepted (fun name => ixde name host.GetModuleFileName.2)
    10000 0 host.hr s (by decide)
  rw [← hrun] at hloop
  refine ⟨hloop, ?_, by decide⟩
  intro hall
  obtain ⟨k, _, hk, ⟨_, hlast, _⟩, _⟩ := hloop
  obtain ⟨ys, hys⟩ := List.getLast?_eq_some_iff.mp hlast
  have hsplit : candidateNames 0 10000 = candidateNames 0 k ++ candidateNames (0 + k) (10000 - k) := by
    rw [← candidateNames_add]
    congr 1
    omega
  apply hall
  rw [hsplit, attemptAll_append, hys]
  simp

/-- C10 on a host that accepts the third identifier: three attempts are made
and the success code of the third is returned. -/
theorem C10_witness_thirdChannelHost :
    InjectWindhawkTAP thirdChannelHost 0 = (S_OK, 3) ∧
    ∃ k, 1 ≤ k ∧ k ≤ 10000 ∧
      firstAccepted (fun name => (fun name (_ : wstring) (s : Nat) =>
          if name = L "WinUIVisualDiagConnection3" then (S_OK, s + 1)
          else (HRESULT_FROM_WIN32 ERROR_NOT_FOUND, s + 1)) name
            thirdChannelHost.GetModuleFileName.2) 0 k 0
        (InjectWindhawkTAP thirdChannelHost 0).1 (InjectWindhawkTAP thirdChannelHost 0).2 ∧
      ((InjectWindhawkTAP thirdChannelHost 0).1 ≠ HRESULT_FROM_WIN32 ERROR_NOT_FOUND ∨
        k = 10000) :=
  ⟨by decide,
    (C10_InjectWindhawkTAP_first_accepted thirdChannelHost 0 _ (by decide) (by decide)
      (by decide) rfl).1⟩

/-! ## The three hide paths -/

theorem deferredCheck_match (h : Nat) (w : World)
    (hen : w.g_disabled = false) (hfe : (w.try_as_FrameworkElement h).isSome = true)
    (hv : w.visibility h = Visibility.Visible) (hm : signalsMatch w h = true) :
    deferredCheck h w =
      (HideAdjacentSeparator h
        ((w.Wh_Log "Deferred hiding: %s"
          (if (GetAppBarButtonLabelText w h).isEmpty then GetButtonSvgUri w h
            else GetAppBarButtonLabelText w h)).setVisibility h
          Visibility.Collapsed)).RegisterPropertyChangedCallback h Callback.ReHideCallback := by
  obtain ⟨fe, hfe'⟩ := Option.isSome_iff_exists.mp hfe
  unfold signalsMatch at hm
  simp [deferredCheck, hen, hfe', hv, hm]

theorem layoutDeferredCheck_eq (h : Nat) (w : World) (hen : w.g_disabled = false)
    (hm : signalsMatch w h = true) :
    layoutDeferredCheck h w =
      HideAdjacentSeparator h
        ((w.Wh_Log "Layout-deferred hide: %s"
          (if (GetAppBarButtonLabelText w h).isEmpty then GetButtonSvgUri w h
            else GetAppBarButtonLabelText w h)).setVisibility h Visibility.Collapsed) := by
  unfold signalsMatch at hm
  simp [layoutDeferredCheck, hen, hm]

/-- C12: of the three code paths that hide a matching element, the immediate
hide in `HideButton` and the hide of the visibility-triggered re-check collapse
the element, run separator suppression and register `ReHideCallback` on it.
The hide of the idle-queue re-check collapses the element and runs separator
suppression but registers nothing: the callbacks on the element are those it
had before.  On the sample bar the idle-queue re-check hides the "Share" button
and the separator before it, and the only callback on the button afterwards is
the deferred watch it already had. -/
theorem C12_hide_paths_and_watch (w : World) (h : Nat) (reason : wstring) :
    ((HideButton h reason w).visibility h = Visibility.Collapsed ∧
      (HideButton h reason w).visibility =
        (HideAdjacentSeparator h (w.setVisibility h Visibility.Collapsed)).visibility ∧
      (HideButton h reason w).callbacks h = w.callbacks h ++ [Callback.ReHideCallback]) ∧
    (w.g_disabled = false → (w.try_as_FrameworkElement h).isSome = true →
      w.visibility h = Visibility.Visible → signalsMatch w h = true →
      (deferredCheck h w).visibility h = Visibility.Collapsed ∧
      (deferredCheck h w).visibility =
        (HideAdjacentSeparator h (w.setVisibility h Visibility.Collapsed)).visibility ∧
      (deferredCheck h w).callbacks h = w.callbacks h ++ [Callback.ReHideCallback]) ∧
    (w.g_disabled = false → signalsMatch w h = true →
      (layoutDeferredCheck h w).visibility h = Visibility.Collapsed ∧
      (layoutDeferredCheck h w).visibility =
        (HideAdjacentSeparator h (w.setVisibility h Visibility.Collapsed)).visibility ∧
      (layoutDeferredCheck h w).callbacks = w.callbacks) ∧
    (labelledBeforeIdleCheck.idleQueue = [2] ∧
      signalsMatch labelledBeforeIdleCheck 2 = true ∧
      (runIdleTask labelledBeforeIdleCheck).visibility 2 = Visibility.Collapsed ∧
      (runIdleTask labelledBeforeIdleCheck).visibility 1 = Visibility.Collapsed ∧
      (runIdleTask labelledBeforeIdleCheck).callbacks 2 = [Callback.deferredCheck] ∧
      Callback.ReHideCallback ∉ (runIdleTask labelledBeforeIdleCheck).callbacks 2) := by
  refine ⟨?_, ?_, ?_, by decide⟩
  · obtain ⟨_, e2, e3, _, _⟩ := HideButton_effect h reason w
    refine ⟨e2, ?_, e3⟩
    show (HideAdjacentSeparator h _).visibility = _
    exact HideAdjacentSeparator_visibility_congr (by rfl) (by rfl) h
  · intro hen hfe hv hm
    rw [deferredCheck_match h w hen hfe hv hm]
    obtain ⟨_, _, _, f4, _, _, f7⟩ := HideAdjacentSeparator_frame h
      ((w.Wh_Log "Deferred hiding: %s"
        (if (GetAppBarButtonLabelText w h).isEmpty then GetButtonSvgUri w h
          else GetAppBarButtonLabelText w h)).setVisibility h Visibility.Collapsed)
    refine ⟨?_, ?_, ?_⟩
    · show (HideAdjacentSeparator h _).visibility h = Visibility.Collapsed
      rw [f7]
      simp [World.setVisibility]
    · show (HideAdjacentSeparator h _).visibility = _
      exact HideAdjacentSeparator_visibility_congr (by rfl) (by rfl) h
    · show Function.update (HideAdjacentSeparator h _).callbacks h
        ((HideAdjacentSeparator h _).callbacks h ++ [Callback.ReHideCallback]) h = _
      rw [f4]
      simp [World.setVisibility, World.Wh_Log]
  · intro hen hm
    rw [layoutDeferredCheck_eq h w hen hm]
    obtain ⟨_, _, _, f4, _, _, f7⟩ := HideAdjacentSeparator_frame h
      ((w.Wh_Log "Layout-deferred hide: %s"
        (if (GetAppBarButtonLabelText w h).isEmpty then GetButtonSvgUri w h
          else GetAppBarButtonLabelText w h)).setVisibility h Visibility.Collapsed)
    refine ⟨?_, HideAdjacentSeparator_visibility_congr (by rfl) (by rfl) h, f4⟩
    rw [f7]
    simp [World.setVisibility]

/-! ## The deferred re-check -/

/-- While the signals of an element stay empty, one collapse-and-show cycle
leaves it shown and enqueues one idle-queue re-check per registered deferred
watch; nothing else changes. -/
theorem showCycle_empty (h : Nat) (w : World)
    (hen : w.g_disabled = false) (hfe : (w.try_as_FrameworkElement h).isSome = true)
    (huri : GetButtonSvgUri w h = []) (hlab : GetAppBarButtonLabelText w h = []) :
    showCycle h w =
      { w with
        visibility := Function.update w.visibility h Visibility.Visible,
        idleQueue :=
          w.idleQueue ++ List.replicate ((w.callbacks h).count Callback.deferredCheck) h } := by
  unfold showCycle
  by_cases hv : w.visibility h = Visibility.Collapsed
  · have hsame : hostSetVisibility h Visibility.Collapsed w = w := by
      simp [hostSetVisibility, hv]
    rw [hsame]
    exact hostShow_empty h w hen hfe huri hlab hv
  · have hcoll : hostSetVisibility h Visibility.Collapsed w =
        w.setVisibility h Visibility.Collapsed := by
      simp only [hostSetVisibility, hv, if_false, notifyVisibilityChanged]
      exact notify_collapsed h _ _ (by simp [World.setVisibility])
    rw [hcoll, hostShow_empty h (w.setVisibility h Visibility.Collapsed) hen hfe
      ((GetButtonSvgUri_congr (by rfl) h).trans huri)
      ((GetAppBarButtonLabelText_congr (by rfl) h).trans hlab)
      (by simp [World.setVisibility])]
    simp [World.setVisibility]

theorem showCycle_iterate_empty (h : Nat) (w : World)
    (hen : w.g_disabled = false) (hfe : (w.try_as_FrameworkElement h).isSome = true)
    (huri : GetButtonSvgUri w h = []) (hlab : GetAppBarButtonLabelText w h = []) :
    ∀ k, ((showCycle h)^[k] w).tree = w.tree ∧
      ((showCycle h)^[k] w).g_disabled = false ∧
      ((showCycle h)^[k] w).callbacks = w.callbacks ∧
      ((showCycle h)^[k] w).idleQueue =
        w.idleQueue ++
          List.replicate (k * (w.callbacks h).count Callback.deferredCheck) h := by
  intro k
  induction k with
  | zero => exact ⟨rfl, hen, rfl, by simp⟩
  | succ k ih =>
    obtain ⟨i1, i2, i3, i4⟩ := ih
    have hfe' : (((showCycle h)^[k] w).try_as_FrameworkElement h).isSome = true := by
      rw [← hfe]
      exact congrArg Option.isSome (congrFun (try_as_congr i1) h)
    have huri' : GetButtonSvgUri ((showCycle h)^[k] w) h = [] :=
      (GetButtonSvgUri_congr i1 h).trans huri
    have hlab' : GetAppBarButtonLabelText ((showCycle h)^[k] w) h = [] :=
      (GetAppBarButtonLabelText_congr i1 h).trans hlab
    rw [Function.iterate_succ_apply',
      showCycle_empty h ((showCycle h)^[k] w) i2 hfe' huri' hlab']
    refine ⟨i1, i2, i3, ?_⟩
    show ((showCycle h)^[k] w).idleQueue ++
      List.replicate ((((showCycle h)^[k] w).callbacks h).count Callback.deferredCheck) h = _
    rw [i4, i3, List.append_assoc, ← List.replicate_add, Nat.succ_mul]

/-- C13 (amended): the deferred re-check is not capped at two attempts in
all.  For an element (a framework element) that `ProcessAppBarButton` sees
with empty icon path and empty label, each such call registers one more
deferred watch, and no watch is ever unregistered.  While the feature is not
disabled and the signals stay empty, every collapse-and-show cycle of the
element leaves it shown and makes each registered deferred watch schedule one
idle-queue re-check: with `n` deferred watches registered, `k` cycles schedule
`k * n` re-checks and leave the watches registered.  Each idle-queue re-check
that still finds the signals empty only leaves the queue: it schedules
nothing, registers nothing and leaves the element alone. -/
theorem C13_two_attempts_per_show (w : World) (h : Nat)
    (hen : w.g_disabled = false) (hfe : (w.try_as_FrameworkElement h).isSome = true)
    (huri : GetButtonSvgUri w h = []) (hlab : GetAppBarButtonLabelText w h = []) :
    ((ProcessAppBarButton h w).callbacks h = w.callbacks h ++ [Callback.deferredCheck] ∧
      ((ProcessAppBarButton h w).callbacks h).count Callback.deferredCheck =
        (w.callbacks h).count Callback.deferredCheck + 1) ∧
    (∀ w' : World, w'.g_disabled = false → (w'.try_as_FrameworkElement h).isSome = true →
      GetButtonSvgUri w' h = [] → GetAppBarButtonLabelText w' h = [] →
      showCycle h w' =
        { w' with
          visibility := Function.update w'.visibility h Visibility.Visible,
          idleQueue :=
            w'.idleQueue ++
              List.replicate ((w'.callbacks h).count Callback.deferredCheck) h }) ∧
    (∀ k, ((showCycle h)^[k] (ProcessAppBarButton h w)).idleQueue =
        w.idleQueue ++
          List.replicate (k * ((w.callbacks h).count Callback.deferredCheck + 1)) h ∧
      ((showCycle h)^[k] (ProcessAppBarButton h w)).callbacks h =
        w.callbacks h ++ [Callback.deferredCheck]) ∧
    (∀ (w' : World) (rest : List Nat),
      GetButtonSvgUri w' h = [] → GetAppBarButtonLabelText w' h = [] →
      w'.idleQueue = h :: rest →
      runIdleTask w' = { w' with idleQueue := rest }) := by
  have hproc := ProcessAppBarButton_both_empty w h hfe huri hlab
  have hcb1 : (ProcessAppBarButton h w).callbacks h =
      w.callbacks h ++ [Callback.deferredCheck] := by
    rw [hproc]
    simp [World.RegisterPropertyChangedCallback]
  have hcount : ((ProcessAppBarButton h w).callbacks h).count Callback.deferredCheck =
      (w.callbacks h).count Callback.deferredCheck + 1 := by
    rw [hcb1]
    simp
  have ht1 : (ProcessAppBarButton h w).tree = w.tree := by rw [hproc]; rfl
  have hen1 : (ProcessAppBarButton h w).g_disabled = false := by rw [hproc]; exact hen
  have hq1 : (ProcessAppBarButton h w).idleQueue = w.idleQueue := by rw [hproc]; rfl
  have hfe1 : ((ProcessAppBarButton h w).try_as_FrameworkElement h).isSome = true := by
    rw [← hfe]
    exact congrArg Option.isSome (congrFun (try_as_congr ht1) h)
  have huri1 : GetButtonSvgUri (ProcessAppBarButton h w) h = [] :=
    (GetButtonSvgUri_congr ht1 h).trans huri
  have hlab1 : GetAppBarButtonLabelText (ProcessAppBarButton h w) h = [] :=
    (GetAppBarButtonLabelText_congr ht1 h).trans hlab
  refine ⟨⟨hcb1, hcount⟩, fun w' hen' hfe' hu' hl' => showCycle_empty h w' hen' hfe' hu' hl',
    fun k => ?_, ?_⟩
  · obtain ⟨_, _, i3, i4⟩ := showCycle_iterate_empty h _ hen1 hfe1 huri1 hlab1 k
    refine ⟨?_, by rw [i3, hcb1]⟩
    rw [i4, hq1, hcount]
  · intro w' rest hu hl hq
    simp only [runIdleTask, hq]
    exact layoutDeferredCheck_empty h _
      ((GetButtonSvgUri_congr (by rfl) h).trans hu)
      ((GetAppBarButtonLabelText_congr (by rfl) h).trans hl)

/-- C13 on the sample bar: two collapse-and-show cycles of the empty button
enqueue two idle-queue re-checks. -/
theorem C13_witness_freshButtonBar :
    ((showCycle 1)^[2] (ProcessAppBarButton 1 freshButtonBar)).idleQueue = [1, 1] :=
  ((C13_two_attempts_per_show freshButtonBar 1 (by decide) (by decide) (by decide)
    (by decide)).2.2.1 2).1

/-- C13 as stated fails: the empty button of the sample bar is shown and its
idle-queue re-check runs, which are the two attempts; its signals are still
empty, and the next collapse-and-show cycle enqueues a further re-check, and
the one after that another.  A button processed twice while empty carries two
deferred watches, and a single cycle enqueues two re-checks. -/
theorem C13_counterexample_recheck_after_two :
    (showCycle 1 (ProcessAppBarButton 1 freshButtonBar)).idleQueue = [1] ∧
    (runIdleTask (showCycle 1 (ProcessAppBarButton 1 freshButtonBar))).idleQueue = [] ∧
    GetButtonSvgUri
      (runIdleTask (showCycle 1 (ProcessAppBarButton 1 freshButtonBar))) 1 = [] ∧
    GetAppBarButtonLabelText
      (runIdleTask (showCycle 1 (ProcessAppBarButton 1 freshButtonBar))) 1 = [] ∧
    (showCycle 1
      (runIdleTask (showCycle 1 (ProcessAppBarButton 1 freshButtonBar)))).idleQueue = [1] ∧
    (showCycle 1 (showCycle 1
      (runIdleTask (showCycle 1 (ProcessAppBarButton 1 freshButtonBar))))).idleQueue =
      [1, 1] ∧
    (showCycle 1
      (ProcessAppBarButton 1 (ProcessAppBarButton 1 freshButtonBar))).idleQueue = [1, 1] := by
  decide

/-! ## Attach and detach -/

theorem settled_initial : settled Registration.initial :=
  ⟨rfl, Or.inl rfl⟩

/-- After a successful unadvise of the held watcher of a settled state nothing
is advised. -/
theorem UnadviseVisualTreeChange_settled (d : Diagnostics) (hu : unadviseSucceeds d)
    (s : Registration) (watcher : VisualTreeWatcher)
    (hs : settled s) (hw : s.g_visualTreeWatcher = some watcher) :
    (UnadviseVisualTreeChange d watcher s).advised = [] ∧
    (UnadviseVisualTreeChange d watcher s).adviseThreads = s.adviseThreads ∧
    (UnadviseVisualTreeChange d watcher s).constructed = s.constructed := by
  have hok := hu watcher
  rcases hs.2 with h | ⟨w', h, hw'⟩
  · simp [UnadviseVisualTreeChange, hok, h]
  · have : w' = watcher := by
      rw [hw] at hw'
      exact (Option.some.inj hw').symm
    subst this
    simp [UnadviseVisualTreeChange, hok, h]

theorem adviseThreadRuns_settled (d : Diagnostics) (host : Host (List wstring))
    (s : Registration)
    (hs : s.advised = [] ∧
      (s.adviseThreads = [] ∨
        ∃ watcher, s.adviseThreads = [watcher] ∧ s.g_visualTreeWatcher = some watcher)) :
    settled (lifecycleStep d host s LifecycleEvent.adviseThreadRuns) := by
  obtain ⟨ha, ht | ⟨watcher, ht, hw⟩⟩ := hs
  · simp only [lifecycleStep, ht]
    exact ⟨ht, Or.inl ha⟩
  · simp only [lifecycleStep, ht, adviseThread]
    by_cases hf : FAILED (d.AdviseVisualTreeChange watcher) = true
    · simp only [hf, if_true]
      exact ⟨rfl, Or.inl ha⟩
    · simp only [hf, Bool.false_eq_true, if_false]
      exact ⟨rfl, Or.inr ⟨watcher, by simp [ha], hw⟩⟩

/-- Constructing a watcher on a state where nothing is advised and no thread is
outstanding. -/
theorem construct_from_quiet (d : Diagnostics) (site : Nat) (s : Registration)
    (ha : s.advised = []) (ht : s.adviseThreads = []) :
    (match constructVisualTreeWatcher d site s with
      | (Except.ok watcher, s2) => (S_OK, { s2 with g_visualTreeWatcher := some watcher })
      | (Except.error hr, s2) => (hr, s2)).2.advised = [] ∧
    ((match constructVisualTreeWatcher d site s with
        | (Except.ok watcher, s2) => (S_OK, { s2 with g_visualTreeWatcher := some watcher })
        | (Except.error hr, s2) => (hr, s2)).2.adviseThreads = [] ∨
      ∃ watcher,
        (match constructVisualTreeWatcher d site s with
          | (Except.ok watcher, s2) => (S_OK, { s2 with g_visualTreeWatcher := some watcher })
          | (Except.error hr, s2) => (hr, s2)).2.adviseThreads = [watcher] ∧
        (match constructVisualTreeWatcher d site s with
          | (Except.ok watcher, s2) => (S_OK, { s2 with g_visualTreeWatcher := some watcher })
          | (Except.error hr, s2) => (hr, s2)).2.g_visualTreeWatcher = some watcher) := by
  by_cases hx : d.isXamlDiagnostics site = true
  · by_cases hc : d.CreateThread s.constructed = true
    · simp only [constructVisualTreeWatcher, hx, hc, if_true]
      exact ⟨ha, Or.inr ⟨_, by simp [ht], rfl⟩⟩
    · simp only [constructVisualTreeWatcher, hx, hc, if_true, Bool.false_eq_true, if_false]
      exact ⟨ha, Or.inl ht⟩
  · simp only [constructVisualTreeWatcher, hx, Bool.false_eq_true, if_false]
    exact ⟨ha, Or.inl ht⟩

theorem SetSite_from_settled (d : Diagnostics) (hu : unadviseSucceeds d)
    (pUnkSite : Option Nat) (s : Registration) (hs : settled s) :
    (SetSite d pUnkSite s).2.advised = [] ∧
      ((SetSite d pUnkSite s).2.adviseThreads = [] ∨
        ∃ watcher, (SetSite d pUnkSite s).2.adviseThreads = [watcher] ∧
          (SetSite d pUnkSite s).2.g_visualTreeWatcher = some watcher) := by
  have hthreads := hs.1
  have hquiet : s.g_visualTreeWatcher = none → s.advised = [] := by
    intro hw
    rcases hs.2 with h | ⟨w', _, hw'⟩
    · exact h
    · rw [hw] at hw'
      exact absurd hw' (by simp)
  cases pUnkSite with
  | none =>
    cases hw : s.g_visualTreeWatcher with
    | none =>
      simp only [SetSite, hw]
      exact ⟨hquiet hw, Or.inl hthreads⟩
    | some watcher =>
      obtain ⟨u1, u2, _⟩ := UnadviseVisualTreeChange_settled d hu s watcher hs hw
      simp only [SetSite, hw]
      exact ⟨u1, Or.inl (u2.trans hthreads)⟩
  | some site =>
    cases hw : s.g_visualTreeWatcher with
    | none =>
      simp only [SetSite, hw]
      exact construct_from_quiet d site s (hquiet hw) hthreads
    | some watcher =>
      obtain ⟨u1, u2, _⟩ := UnadviseVisualTreeChange_settled d hu s watcher hs hw
      simp only [SetSite, hw]
      exact construct_from_quiet d site
        { UnadviseVisualTreeChange d watcher s with g_visualTreeWatcher := none }
        u1 (u2.trans hthreads)

theorem UninitializeSettingsAndTap_from_settled (d : Diagnostics) (hu : unadviseSucceeds d)
    (s : Registration) (hs : settled s) :
    (UninitializeSettingsAndTap d s).advised = [] ∧
    (UninitializeSettingsAndTap d s).adviseThreads = [] ∧
    (UninitializeSettingsAndTap d s).g_visualTreeWatcher = none := by
  cases hw : s.g_visualTreeWatcher with
  | none =>
    have ha : s.advised = [] := by
      rcases hs.2 with h | ⟨w', _, hw'⟩
      · exact h
      · rw [hw] at hw'
        exact absurd hw' (by simp)
    have e : UninitializeSettingsAndTap d s = { s with g_initialized := false } := by
      simp [UninitializeSettingsAndTap, hw]
    rw [e]
    exact ⟨ha, hs.1, hw⟩
  | some watcher =>
    have e : UninitializeSettingsAndTap d s =
        { UnadviseVisualTreeChange d watcher { s with g_initialized := false } with
          g_visualTreeWatcher := none } := by
      simp [UninitializeSettingsAndTap, hw]
    have hs' : settled ({ s with g_initialized := false } : Registration) := hs
    obtain ⟨u1, u2, _⟩ := UnadviseVisualTreeChange_settled d hu
      { s with g_initialized := false } watcher hs' hw
    rw [e]
    exact ⟨u1, u2.trans hs.1, rfl⟩

theorem call_then_thread_settled (d : Diagnostics) (hu : unadviseSucceeds d)
    (host : Host (List wstring)) (s : Registration) (hs : settled s) (call : LifecycleEvent) :
    settled (lifecycleStep d host (lifecycleStep d host s call)
      LifecycleEvent.adviseThreadRuns) := by
  cases call with
  | targetWindowCreated =>
    have hsame : settled (lifecycleStep d host s LifecycleEvent.targetWindowCreated) := by
      simp only [lifecycleStep, InitializeSettingsAndTap]
      split
      · exact hs
      · exact hs
    have hstay : lifecycleStep d host
        (lifecycleStep d host s LifecycleEvent.targetWindowCreated)
        LifecycleEvent.adviseThreadRuns =
        lifecycleStep d host s LifecycleEvent.targetWindowCreated := by
      have h1 : (InitializeSettingsAndTap host s).adviseThreads = [] := hsame.1
      simp only [lifecycleStep, h1]
    rw [hstay]
    exact hsame
  | SetSite pUnkSite =>
    exact adviseThreadRuns_settled d host _ (SetSite_from_settled d hu pUnkSite s hs)
  | teardown =>
    obtain ⟨h1, h2, _⟩ := UninitializeSettingsAndTap_from_settled d hu s hs
    exact adviseThreadRuns_settled d host _ ⟨h1, Or.inl h2⟩
  | adviseThreadRuns =>
    have hstay : lifecycleStep d host s LifecycleEvent.adviseThreadRuns = s := by
      simp only [lifecycleStep, hs.1]
    rw [hstay, hstay]
    exact hs

theorem threadsKeepUp_settled (d : Diagnostics) (hu : unadviseSucceeds d)
    (host : Host (List wstring)) (calls : List LifecycleEvent) :
    ∀ s, settled s → settled ((threadsKeepUp calls).foldl (lifecycleStep d host) s) := by
  induction calls with
  | nil => intro s hs; exact hs
  | cons call rest ih =>
    intro s hs
    have hsplit : threadsKeepUp (call :: rest) =
        call :: LifecycleEvent.adviseThreadRuns :: threadsKeepUp rest := by
      simp [threadsKeepUp, List.flatMap_cons]
    rw [hsplit, List.foldl_cons, List.foldl_cons]
    exact ih _ (call_then_thread_settled d hu host s hs call)

/-- C11: the code keeps at most one observer registration live only while
every unadvise call succeeds and the advise thread a call started runs before
the next call; in every state reached by such a sequence of target-window-created
notifications, site assignments and teardowns at most one watcher is advised,
`SetSite` leaves nothing advised when it returns (the existing watcher is
unadvised before the new one is constructed), a second
`InitializeSettingsAndTap` changes nothing, and a teardown with no watcher held
unadvises nothing.  The code breaks the claim in two ways.  When a second site
assignment arrives before the advise thread of the first watcher has run, the
unadvise removes nothing and after both threads have run two watchers are
advised.  When the unadvise call fails, the program only logs it and constructs
the next watcher, so two watchers are advised even when the threads keep up. -/
theorem C11_registrations_and_where_they_overlap (d : Diagnostics)
    (host : Host (List wstring)) (calls : List LifecycleEvent) :
    (unadviseSucceeds d →
      (lifecycleRun d host (threadsKeepUp calls)).advised.length ≤ 1 ∧
      settled (lifecycleRun d host (threadsKeepUp calls)) ∧
      ∀ (s : Registration) (pUnkSite : Option Nat), settled s →
        (SetSite d pUnkSite s).2.advised = [] ∧
        ((SetSite d pUnkSite s).2.adviseThreads = [] ∨
          ∃ watcher, (SetSite d pUnkSite s).2.adviseThreads = [watcher] ∧
            (SetSite d pUnkSite s).2.g_visualTreeWatcher = some watcher)) ∧
    (∀ s : Registration, s.g_initialized = true → InitializeSettingsAndTap host s = s) ∧
    (∀ s : Registration, (InitializeSettingsAndTap host s).g_initialized = true) ∧
    (∀ (s : Registration) (pUnkSite : Option Nat),
      (SetSite d pUnkSite s).2.g_initialized = s.g_initialized ∧
      (lifecycleStep d host s LifecycleEvent.adviseThreadRuns).g_initialized =
        s.g_initialized) ∧
    (∀ s : Registration, s.g_visualTreeWatcher = none →
      (UninitializeSettingsAndTap d s).advised = s.advised) ∧
    ((lifecycleRun willingDiagnostics recordingHost
      [LifecycleEvent.targetWindowCreated, LifecycleEvent.SetSite (some 1),
        LifecycleEvent.SetSite (some 2), LifecycleEvent.adviseThreadRuns,
        LifecycleEvent.adviseThreadRuns]).advised = [⟨0, 1⟩, ⟨1, 2⟩] ∧
      (lifecycleRun willingDiagnostics recordingHost
        (threadsKeepUp [LifecycleEvent.targetWindowCreated, LifecycleEvent.SetSite (some 1),
          LifecycleEvent.SetSite (some 2)])).advised = [⟨1, 2⟩] ∧
      (lifecycleRun stubbornDiagnostics recordingHost
        (threadsKeepUp [LifecycleEvent.targetWindowCreated, LifecycleEvent.SetSite (some 1),
          LifecycleEvent.SetSite (some 2)])).advised = [⟨0, 1⟩, ⟨1, 2⟩]) := by
  refine ⟨fun hu => ?_, ?_, ?_, ?_, ?_, by decide⟩
  · have hset := threadsKeepUp_settled d hu host calls Registration.initial settled_initial
    refine ⟨?_, hset, fun s p hs => SetSite_from_settled d hu p s hs⟩
    rcases hset.2 with h | ⟨w, h, _⟩
    · simp [lifecycleRun, h]
    · simp [lifecycleRun, h]
  · intro s hi
    simp [InitializeSettingsAndTap, hi]
  · intro s
    unfold InitializeSettingsAndTap
    split
    · assumption
    · rfl
  · intro s p
    constructor
    · unfold SetSite constructVisualTreeWatcher UnadviseVisualTreeChange
      cases p <;> cases s.g_visualTreeWatcher <;> dsimp only <;> (try split_ifs) <;> rfl
    · unfold lifecycleStep adviseThread
      cases s.adviseThreads
      · rfl
      · dsimp only
        split_ifs <;> rfl
  · intro s hw
    simp [UninitializeSettingsAndTap, hw]

end ButtonHider
